import Mathlib

/-!
# Shallow embedding of the n8n workflow structural validator / auto-repair engine

This file embeds, in Lean 4, the data model and the operations of
`src/lib/validator.ts` (the structural validation and deterministic
auto-repair engine) and the depth computation of `src/lib/analyzer.ts`
of the flowengine-mcp-n8n-workflow-builder repository, and proves /
refutes the specified properties about them.

Modelling conventions (JavaScript to Lean):
* JS objects with string keys become ordered association lists
  (`List (String × α)`); `Object.entries` iteration order is list order,
  assignment to an existing key replaces in place, assignment to a fresh
  key appends at the end, `delete` removes the entry.
* Optional / possibly-absent fields become `Option`; a JS "falsy" string
  (undefined or `""`) is tested with `falsyStr`.
* Machine numbers are `Int` (positions, indexes) and `Nat` (counters).
* `uuidv4()` (used only to fill a missing node `id`; no claim inspects
  the generated value) is modelled by the deterministic `uuidModel`,
  indexed by the node position in the list.
* `console.log` calls are ignored (pure model).
* The two statements that can throw a `TypeError` at runtime
  (`connections[tool].ai_tool[0].find` in `fixBackwardsToolConnections`
  and `connections[agent].main[0].push` in `rebuildOrphanedConnections`,
  both when the array exists but is empty) are modelled in the `Except
  String` monad; `validateWorkflow`'s surrounding `try/catch` catches
  the error and returns it as the single error of the report.
-/

namespace NWF

/-! ## JSON-ish parameter values -/

/-- A JSON-like value stored in a node's `parameters` / `credentials` map. -/
inductive PVal where
  | str  : String → PVal
  | num  : Int → PVal
  | bool : Bool → PVal
  | null : PVal
  | obj  : List (String × PVal) → PVal
deriving Repr

mutual

/-- Decidable equality for `PVal` (the nested `obj` constructor defeats
automatic derivation). -/
def PVal.deq : (a b : PVal) → Decidable (a = b)
  | .str a, .str b =>
      match decEq a b with
      | isTrue h => isTrue (by rw [h])
      | isFalse h => isFalse (by intro hh; cases hh; exact h rfl)
  | .num a, .num b =>
      match decEq a b with
      | isTrue h => isTrue (by rw [h])
      | isFalse h => isFalse (by intro hh; cases hh; exact h rfl)
  | .bool a, .bool b =>
      match decEq a b with
      | isTrue h => isTrue (by rw [h])
      | isFalse h => isFalse (by intro hh; cases hh; exact h rfl)
  | .null, .null => isTrue rfl
  | .obj a, .obj b =>
      match PVal.deqList a b with
      | isTrue h => isTrue (by rw [h])
      | isFalse h => isFalse (by intro hh; cases hh; exact h rfl)
  | .str _, .num _ => isFalse (by intro h; cases h)
  | .str _, .bool _ => isFalse (by intro h; cases h)
  | .str _, .null => isFalse (by intro h; cases h)
  | .str _, .obj _ => isFalse (by intro h; cases h)
  | .num _, .str _ => isFalse (by intro h; cases h)
  | .num _, .bool _ => isFalse (by intro h; cases h)
  | .num _, .null => isFalse (by intro h; cases h)
  | .num _, .obj _ => isFalse (by intro h; cases h)
  | .bool _, .str _ => isFalse (by intro h; cases h)
  | .bool _, .num _ => isFalse (by intro h; cases h)
  | .bool _, .null => isFalse (by intro h; cases h)
  | .bool _, .obj _ => isFalse (by intro h; cases h)
  | .null, .str _ => isFalse (by intro h; cases h)
  | .null, .num _ => isFalse (by intro h; cases h)
  | .null, .bool _ => isFalse (by intro h; cases h)
  | .null, .obj _ => isFalse (by intro h; cases h)
  | .obj _, .str _ => isFalse (by intro h; cases h)
  | .obj _, .num _ => isFalse (by intro h; cases h)
  | .obj _, .bool _ => isFalse (by intro h; cases h)
  | .obj _, .null => isFalse (by intro h; cases h)

/-- Decidable equality for lists of `String × PVal` pairs. -/
def PVal.deqList : (a b : List (String × PVal)) → Decidable (a = b)
  | [], [] => isTrue rfl
  | [], _ :: _ => isFalse (by intro h; cases h)
  | _ :: _, [] => isFalse (by intro h; cases h)
  | (k, v) :: xs, (k', v') :: ys =>
      match decEq k k', PVal.deq v v', PVal.deqList xs ys with
      | isTrue h1, isTrue h2, isTrue h3 => isTrue (by rw [h1, h2, h3])
      | isFalse h1, _, _ => isFalse (by intro hh; cases hh; exact h1 rfl)
      | _, isFalse h2, _ => isFalse (by intro hh; cases hh; exact h2 rfl)
      | _, _, isFalse h3 => isFalse (by intro hh; cases hh; exact h3 rfl)

end

instance : DecidableEq PVal := PVal.deq

/-- A single connection record `{ node, type, index }`.  Any of the three
fields can be absent in malformed input (`'node' in conn` checks appear in
the source). -/
structure Conn where
  node  : Option String
  type  : Option String
  index : Option Int
deriving Repr, DecidableEq

/-- `portKind → outputs` : ordered map from connection type (`main`,
`ai_tool`, `ai_languageModel`, `ai_memory`, ...) to the list of output
slots, each an ordered list of connection records. -/
abbrev PortMap := List (String × List (List Conn))

instance : DecidableEq PortMap :=
  inferInstanceAs (DecidableEq (List (String × List (List Conn))))

/-- The adjacency structure: ordered map from source node name to its
`PortMap`. -/
abbrev Conns := List (String × PortMap)

instance : DecidableEq Conns :=
  inferInstanceAs (DecidableEq (List (String × PortMap)))

/-- The `parameters` field of a node: absent, present but not an object
(the malformed-input fast path), or a key→value map. -/
inductive ParamsF where
  | missing   : ParamsF
  | malformed : ParamsF
  | map       : List (String × PVal) → ParamsF
deriving Repr, DecidableEq

/-- A workflow node (`Step`).  `position = none` models both a missing
field and a non-array value (the source guards with
`!node.position || !Array.isArray(node.position)` in all places). -/
structure NodeJ where
  id          : Option String
  name        : Option String
  type        : Option String
  typeVersion : Option Int
  position    : Option (List Int)
  parameters  : ParamsF
  credentials : Option (List (String × PVal))
deriving Repr, DecidableEq

/-- A workflow document.  `nodes = none` models a missing / non-array
`nodes` field; a non-object input document is modelled by passing `none`
at the `Option WorkflowJ` type to `validateWorkflow`. -/
structure WorkflowJ where
  id          : Option String
  name        : Option String
  nodes       : Option (List NodeJ)
  connections : Option Conns
  active      : Option Bool
deriving Repr, DecidableEq

/-! ## Generic JS-object operations on association lists -/

/-- First-match lookup (JS property read on an object with unique keys). -/
def getEntry (k : String) (l : List (String × α)) : Option α :=
  (l.find? (fun p => p.1 = k)).map (·.2)

/-- JS assignment `o[k] = v`: replace in place when the key exists,
append at the end otherwise. -/
def setEntry (k : String) (v : α) (l : List (String × α)) : List (String × α) :=
  if l.any (fun p => p.1 = k) then
    l.map (fun p => if p.1 = k then (k, v) else p)
  else l ++ [(k, v)]

/-- JS `delete o[k]`. -/
def delEntry (k : String) (l : List (String × α)) : List (String × α) :=
  l.filter (fun p => ¬ p.1 = k)

/-- Keys of an object in declaration order. -/
def keysOf (l : List (String × α)) : List String := l.map (·.1)

/-- JS falsiness for an optional string field (`undefined` or `""`). -/
def falsyStr : Option String → Bool
  | none => true
  | some s => s = ""

/-- Render an optional string the way a JS template literal renders it
(`undefined` prints as the text `undefined`). -/
def showOpt : Option String → String
  | none => "undefined"
  | some s => s

/-- Render an optional integer the way a JS template literal renders it. -/
def showOptInt : Option Int → String
  | none => "undefined"
  | some i => toString i

/-! ## String helpers mirroring the JS string functions used -/

/-- `needle` is a prefix of `hay` (char-list version). -/
def listPre : List Char → List Char → Bool
  | [], _ => true
  | _ :: _, [] => false
  | c :: cs, d :: ds => c = d && listPre cs ds

/-- `needle` occurs as a contiguous sublist of `hay`. -/
def listSub (needle : List Char) : List Char → Bool
  | [] => listPre needle []
  | d :: ds => listPre needle (d :: ds) || listSub needle ds

/-- JS `hay.includes(needle)`. -/
def strIncludes (hay needle : String) : Bool :=
  listSub needle.toList hay.toList

/-- JS `s.toLowerCase()` (ASCII, which is all the source compares;
kernel-reducible, unlike the library loop). -/
def strLower (s : String) : String := String.mk (s.toList.map Char.toLower)

/-- JS `s.startsWith(pre)` (kernel-reducible). -/
def strStarts (s pre : String) : Bool := listPre pre.toList s.toList

/-- The whitespace predicate of `trim` (the characters that can occur
here are ASCII). -/
def isWSChar (c : Char) : Bool := c = ' ' || c = '\t' || c = '\n' || c = '\r'

/-- JS `s.trim()` (kernel-reducible). -/
def strTrim (s : String) : String :=
  String.mk ((((s.toList.dropWhile isWSChar).reverse).dropWhile isWSChar).reverse)

/-- `splitOn` worker over char lists; the fuel is one tick per consumed
character and is always sufficient at the call site. -/
def splitOnAuxL (sep : List Char) : List Char → List Char → Nat → List (List Char)
  | [], cur, _ => [cur.reverse]
  | c :: rest, cur, 0 => [cur.reverse ++ (c :: rest)]
  | c :: rest, cur, fuel + 1 =>
      if listPre sep (c :: rest) then
        cur.reverse :: splitOnAuxL sep ((c :: rest).drop sep.length) [] fuel
      else splitOnAuxL sep rest (c :: cur) fuel

/-- JS `s.split(sep)` / Lean `String.splitOn` for a non-empty separator
(kernel-reducible). -/
def strSplitOn (s sep : String) : List String :=
  if sep = "" then [s]
  else (splitOnAuxL sep.toList s.toList [] (s.toList.length + 1)).map String.mk

/-- `Array.prototype.join` / `String.intercalate` (kernel-reducible). -/
def strJoin (sep : String) : List String → String
  | [] => ""
  | x :: xs => xs.foldl (fun acc y => acc ++ sep ++ y) x

/-- JS regex test `/^(Node|node)\d+$/i.test(s)`: case-insensitively the
literal `node` followed by one or more digits. -/
def isGenericName (s : String) : Bool :=
  match (strLower s).toList with
  | 'n' :: 'o' :: 'd' :: 'e' :: rest => !rest.isEmpty && rest.all Char.isDigit
  | _ => false

/-- Insert a space before every ASCII capital letter:
`s.replace(/([A-Z])/g, ' $1')`. -/
def spaceCaps (l : List Char) : List Char :=
  match l with
  | [] => []
  | c :: cs => if 'A' ≤ c ∧ c ≤ 'Z' then ' ' :: c :: spaceCaps cs else c :: spaceCaps cs

/-- `s.replace(/^./, c => c.toUpperCase())`. -/
def upFirst (l : List Char) : List Char :=
  match l with
  | [] => []
  | c :: cs => c.toUpper :: cs

/-- camelCase → `Title Case` used by the name generators:
`s.replace(/([A-Z])/g, ' $1').replace(/^./, up).trim()`. -/
def camelTitle (s : String) : String :=
  strTrim (String.mk (upFirst (spaceCaps s.toList)))

/-- JS `Set.add`: append only when absent (membership is all that is
observed, plus insertion order never matters for sets in the source). -/
def setAdd (x : String) (s : List String) : List String :=
  if s.contains x then s else s ++ [x]

/-! ## Node-kind predicates (validator.ts lines 159-235)

All predicates take the node's `type` string; call sites where the source
reads `node.type` directly (after the per-node repair loop has ensured the
field is present) pass `n.type.getD ""`. -/

/-- `isTriggerNode`. -/
def isTriggerNode (t : String) : Bool :=
  let l := strLower t
  strIncludes l "trigger" || strIncludes l "webhook" || strIncludes l "manual" ||
    strIncludes l "schedule" || strIncludes l "cron"

/-- `isToolNode`. -/
def isToolNode (t : String) : Bool :=
  strIncludes t "tool" || strIncludes t "Tool"

/-- `isLangChainTool`. -/
def isLangChainTool (t : String) : Bool :=
  strStarts t "@n8n/n8n-nodes-langchain.tool"

/-- `isServiceTool`. -/
def isServiceTool (t : String) : Bool :=
  strStarts t "n8n-nodes-base." && strIncludes (strLower t) "tool"

/-- `isLanguageModelNode`. -/
def isLanguageModelNode (t : String) : Bool :=
  strIncludes t "lmChat" || strIncludes t "ChatModel"

/-- `isChatModelNode`. -/
def isChatModelNode (t : String) : Bool :=
  strIncludes t "lmChat"

/-- `isMemoryNode`. -/
def isMemoryNode (t : String) : Bool :=
  strIncludes t "memory" || strIncludes t "Memory"

/-- `isAgentNode`. -/
def isAgentNode (t : String) : Bool :=
  strIncludes t "agent" || strIncludes t "Agent"

/-- `isAIAgentNode` (strict equality check). -/
def isAIAgentNode (t : String) : Bool :=
  t = "@n8n/n8n-nodes-langchain.agent"

/-- `hasAIAgents`: the workflow contains at least one agent-kind node. -/
def hasAIAgents (nodes : List NodeJ) : Bool :=
  nodes.any (fun n => isAgentNode (n.type.getD ""))

/-! ## Static tables -/

/-- `DEPRECATED_NODES` mapping. -/
def DEPRECATED_NODES : List (String × String) :=
  [("@n8n/n8n-nodes-langchain.openAi", "@n8n/n8n-nodes-langchain.lmChatOpenAi"),
   ("@n8n/n8n-nodes-langchain.chatOpenAi", "@n8n/n8n-nodes-langchain.lmChatOpenAi")]

/-- `REQUIRED_MODEL_TYPES`. -/
def REQUIRED_MODEL_TYPES : List String :=
  ["@n8n/n8n-nodes-langchain.lmChatOpenAi",
   "@n8n/n8n-nodes-langchain.lmChatAnthropic",
   "@n8n/n8n-nodes-langchain.lmChatGoogleGemini",
   "@n8n/n8n-nodes-langchain.lmChatGroq",
   "@n8n/n8n-nodes-langchain.lmChatOllama"]

/-- `getToolVariant`: tool-equivalent of a regular service node type. -/
def getToolVariant (t : String) : Option String :=
  getEntry t
    [("n8n-nodes-base.gmail", "n8n-nodes-base.gmailTool"),
     ("n8n-nodes-base.googleSheets", "n8n-nodes-base.googleSheetsTool"),
     ("n8n-nodes-base.slack", "n8n-nodes-base.slackTool"),
     ("n8n-nodes-base.notion", "n8n-nodes-base.notionTool"),
     ("n8n-nodes-base.airtable", "n8n-nodes-base.airtableTool"),
     ("n8n-nodes-base.github", "n8n-nodes-base.githubTool"),
     ("n8n-nodes-base.googleDrive", "n8n-nodes-base.googleDriveTool"),
     ("n8n-nodes-base.hubspot", "n8n-nodes-base.hubspotTool"),
     ("n8n-nodes-base.salesforce", "n8n-nodes-base.salesforceTool"),
     ("n8n-nodes-base.jira", "n8n-nodes-base.jiraTool"),
     ("n8n-nodes-base.trello", "n8n-nodes-base.trelloTool"),
     ("n8n-nodes-base.asana", "n8n-nodes-base.asanaTool"),
     ("n8n-nodes-base.linear", "n8n-nodes-base.linearTool"),
     ("n8n-nodes-base.discord", "n8n-nodes-base.discordTool"),
     ("n8n-nodes-base.telegram", "n8n-nodes-base.telegramTool"),
     ("n8n-nodes-base.httpRequest", "n8n-nodes-base.httpRequestTool")]

/-- `hardcodedModelPatterns`: the deny-list of model-name substrings. -/
def hardcodedModelPatterns : List String :=
  ["gpt-4", "gpt-3.5", "gpt-4-turbo", "gpt-4o",
   "claude-3", "claude-2", "claude-instant",
   "claude-3-5-sonnet", "claude-3-opus", "claude-3-sonnet", "claude-3-haiku",
   "gemini", "palm",
   "llama", "mistral", "mixtral"]

/-- `credentialMappings` (keyword → credential type and display name). -/
def credentialMappings : List (String × String × String) :=
  [("googlesheets", "googleSheetsOAuth2Api", "Google Sheets account"),
   ("gmail", "gmailOAuth2", "Gmail account"),
   ("slack", "slackOAuth2Api", "Slack account"),
   ("discord", "discordOAuth2Api", "Discord account"),
   ("notion", "notionOAuth2Api", "Notion account"),
   ("airtable", "airtableOAuth2Api", "Airtable account"),
   ("github", "githubOAuth2Api", "GitHub account"),
   ("gitlab", "gitlabOAuth2Api", "GitLab account"),
   ("shopify", "shopifyOAuth2Api", "Shopify account"),
   ("stripe", "stripeApi", "Stripe account"),
   ("hubspot", "hubspotOAuth2Api", "HubSpot account"),
   ("googledrive", "googleDriveOAuth2Api", "Google Drive account"),
   ("dropbox", "dropboxOAuth2Api", "Dropbox account"),
   ("postgres", "postgres", "PostgreSQL account"),
   ("mysql", "mySql", "MySQL account"),
   ("mongodb", "mongoDb", "MongoDB account"),
   ("redis", "redis", "Redis account"),
   ("ssh", "sshPassword", "SSH account"),
   ("ftp", "ftp", "FTP account"),
   ("openai", "openAiApi", "OpenAI account"),
   ("anthropic", "anthropicApi", "Anthropic account")]

/-! ## Descriptive-name generation (validator.ts lines 84-157) -/

/-- The common `nodeType.includes(...)` mapping chain shared verbatim by
`generateDescriptiveName` and `getSuggestedNodeName`, in source order. -/
def descName (t : String) : Option String :=
  if strIncludes t "manualTrigger" then some "Manual Trigger" else
  if strIncludes t "webhook" then some "Webhook Trigger" else
  if strIncludes t "schedule" then some "Schedule Trigger" else
  if strIncludes t "googleSheets" then some "Google Sheets" else
  if strIncludes t "gmail" then some "Gmail" else
  if strIncludes t "slack" then some "Slack" else
  if strIncludes t "httpRequest" then some "HTTP Request" else
  if strIncludes t "set" then some "Set Data" else
  if strIncludes t "code" then some "Code Execute" else
  if strIncludes t "if" then some "Condition Check" else
  if strIncludes t "function" then some "Function" else
  if strIncludes t "merge" then some "Merge Data" else
  if strIncludes t "split" then some "Split Data" else
  if strIncludes t "filter" then some "Filter Data" else
  if strIncludes t "transform" then some "Transform Data" else
  if strIncludes t "email" then some "Send Email" else
  if strIncludes t "file" then some "File Operation" else
  if strIncludes t "database" then some "Database Query" else
  if strIncludes t "lmChatOpenAi" then some "OpenAI Chat Model" else
  if strIncludes t "lmChatAnthropic" then some "Anthropic Chat Model" else
  if strIncludes t "agent" then some "AI Agent" else
  if strIncludes t "memory" then some "Chat Memory" else
  if strIncludes t "tool" then some "AI Tool" else
  none

/-- The fallback `typeParts[typeParts.length - 1] || 'Node'` followed by
camelCase → Title Case conversion. -/
def lastSegTitle (t : String) : String :=
  let lastSeg := (strSplitOn t ".").getLast?.getD ""
  let baseType := if lastSeg = "" then "Node" else lastSeg
  camelTitle baseType

/-- `generateDescriptiveName(node, index)`. -/
def generateDescriptiveName (node : NodeJ) (index : Nat) : String :=
  let nodeType := if falsyStr node.type then "" else node.type.getD ""
  match descName nodeType with
  | some n => n
  | none =>
      let r := lastSegTitle nodeType
      if r = "" then "Process Step " ++ toString (index + 1) else r

/-- `getSuggestedNodeName(nodeType)`. -/
def getSuggestedNodeName (nodeType : Option String) : String :=
  if falsyStr nodeType then "Node" else
  let t := nodeType.getD ""
  match descName t with
  | some n => n
  | none => lastSegTitle t

/-- The `while (names.has(newName)) { counter++; newName = base + ' ' +
counter }` uniquification loop shared by the pipeline's inline rename and
by `ensureDescriptiveNames`.  The loop is given `used.length + 1` steps of
fuel; if the fuel runs out (which cannot happen in the source, where the
loop always escapes a finite set) the last candidate is returned. -/
def uniquifyGo (base : String) (used : List String) : Nat → Nat → String
  | c, 0 => base ++ " " ++ toString c
  | c, fuel + 1 =>
      let cand := base ++ " " ++ toString c
      if used.contains cand then uniquifyGo base used (c + 1) fuel else cand

/-- Uniquify a candidate name against a set of used names. -/
def uniquify (base : String) (used : List String) : String :=
  if used.contains base then uniquifyGo base used 2 (used.length + 1) else base

/-! ## Connection-walking helpers (validator.ts lines 240-353, 897-941) -/

/-- All connection records of one `PortMap`, in iteration order. -/
def pmRecords (pm : PortMap) : List Conn :=
  ((pm.map Prod.snd).map List.flatten).flatten

/-- All `(sourceName, conn)` records of an adjacency object, in
iteration order. -/
def connsRecords (conns : Conns) : List (String × Conn) :=
  (conns.map (fun e => (pmRecords e.2).map (fun c => (e.1, c)))).flatten

/-- The agent-infrastructure connection kinds of
`isConnectedOnlyToAIInfrastructure`. -/
def aiInfraKinds : List String :=
  ["ai_tool", "ai_languageModel", "ai_memory", "ai_outputParser"]

/-- `isConnectedOnlyToAIInfrastructure(nodeName, connections)`: the node
has no connections at all, or every connection touching it (outbound scan
over its own entry, then inbound scan over all records) uses an
agent-infrastructure kind. -/
def isConnectedOnlyToAIInfrastructure (nodeName : String) (connections : Option Conns) :
    Bool :=
  match connections with
  | none => true
  | some conns =>
      let outRecs := (connsRecords conns).filter
        (fun p => p.1 = nodeName && p.2.node.isSome)
      let inRecs := (connsRecords conns).filter
        (fun p => p.2.node.isSome && p.2.node = some nodeName)
      let recs := outRecs ++ inRecs
      let isAI := fun (c : Conn) =>
        match c.type with
        | some t => aiInfraKinds.contains t
        | none => false
      recs.isEmpty || recs.all (fun p => isAI p.2)

/-- `isConnectedTo(connections, sourceNode, targetNode)`.  The source
node's name is used as a property key (JS coerces `undefined` to the text
`"undefined"`); the target is compared with `===` (no coercion). -/
def isConnectedTo (connections : Option Conns) (src tgt : Option String) : Bool :=
  match connections with
  | none => false
  | some conns =>
      match getEntry (showOpt src) conns with
      | none => false
      | some pm => (pmRecords pm).any (fun c => c.node.isSome && c.node = tgt)

/-- `findConnectedNodeByType(workflow, targetName, connectionType)`:
first source whose `connectionType` records reference `targetName`, then
the node with that source name (`undefined` when the name resolves to no
node — the caller treats that as a missing connection). -/
def findConnectedNodeByType (nodes : List NodeJ) (connections : Option Conns)
    (targetName : Option String) (connType : String) : Option NodeJ :=
  match (connections.getD []).find? (fun e =>
      match getEntry connType e.2 with
      | some outs => outs.flatten.any (fun c => c.node = targetName)
      | none => false) with
  | none => none
  | some e => nodes.find? (fun n => n.name = some e.1)

/-- `nodeTypeMap` construction shared by fixes #1 and #4: last write wins
for duplicate names, entries with a falsy name or type are skipped. -/
def buildTypeMap (nodes : List NodeJ) : List (String × String) :=
  nodes.foldl
    (fun m n =>
      if ¬ falsyStr n.name ∧ ¬ falsyStr n.type then
        setEntry (n.name.getD "") (n.type.getD "") m
      else m)
    []

/-! ## CRITICAL FIX #1: `removeInvalidAIToolConnections` -/

/-- Remove the `ai_tool` port of every connection source whose node type
is neither a LangChain tool nor a service tool; sources that do not
resolve in the type map are left alone.  Returns the updated workflow and
the `removed` counter. -/
def removeInvalidAIToolConnections (w : WorkflowJ) : WorkflowJ × Nat :=
  match w.connections with
  | none => (w, 0)
  | some conns =>
      let tm := buildTypeMap (w.nodes.getD [])
      let step := fun (acc : Conns × Nat) (e : String × PortMap) =>
        match getEntry e.1 tm with
        | none => (acc.1 ++ [e], acc.2)
        | some t =>
            if ¬ (isLangChainTool t || isServiceTool t) ∧
                e.2.any (fun p => p.1 = "ai_tool") then
              (acc.1 ++ [(e.1, delEntry "ai_tool" e.2)], acc.2 + 1)
            else (acc.1 ++ [e], acc.2)
      let r := conns.foldl step ([], 0)
      ({w with connections := some r.1}, r.2)

/-! ## CRITICAL FIX #2: `convertRegularNodesToTools` -/

/-- Retype regular service nodes to their tool variants when the workflow
has agents and the node is disconnected or touches only
agent-infrastructure connections. -/
def convertRegularNodesToTools (w : WorkflowJ) : WorkflowJ × Nat × List String :=
  match w.nodes with
  | none => (w, 0, [])
  | some nodes =>
      if ¬ hasAIAgents nodes then (w, 0, [])
      else
        let step := fun (acc : List NodeJ × Nat × List String) (n : NodeJ) =>
          if falsyStr n.type ∨ falsyStr n.name then (acc.1 ++ [n], acc.2)
          else if isToolNode (n.type.getD "") then (acc.1 ++ [n], acc.2)
          else
            match getToolVariant (n.type.getD "") with
            | none => (acc.1 ++ [n], acc.2)
            | some variant =>
                if isConnectedOnlyToAIInfrastructure (n.name.getD "") w.connections then
                  (acc.1 ++ [{n with type := some variant}], acc.2.1 + 1,
                   acc.2.2 ++ ["Converted \"" ++ n.name.getD "" ++ "\" from " ++
                     n.type.getD "" ++ " to " ++ variant ++ " (AI tool variant)"])
                else (acc.1 ++ [n], acc.2)
        let r := nodes.foldl step ([], 0, [])
        ({w with nodes := some r.1}, r.2)

/-! ## CRITICAL FIX #3: `removeHardcodedModelParameters` -/

/-- JS falsiness of a parameter value (`!node.parameters.options`). -/
def pvalFalsy : PVal → Bool
  | .str s => s = ""
  | .num n => n = 0
  | .bool b => !b
  | .null => true
  | .obj _ => false

/-- The deny-list test: the value, lower-cased, contains some pattern,
lower-cased. -/
def matchesModelPattern (v : String) : Bool :=
  hardcodedModelPatterns.any (fun p => strIncludes (strLower v) (strLower p))

/-- Delete `key` from `params` when it holds a string value matching the
deny-list; returns the new map and whether a deletion happened. -/
def stripModelKey (key : String) (params : List (String × PVal)) :
    List (String × PVal) × Bool :=
  match getEntry key params with
  | some (.str v) =>
      if matchesModelPattern v then (delEntry key params, true) else (params, false)
  | _ => (params, false)

/-- `if (!node.parameters.options) node.parameters.options = {}`: ensure
a truthy `options` container. -/
def ensureOptions (params : List (String × PVal)) : List (String × PVal) :=
  match getEntry "options" params with
  | none => setEntry "options" (.obj []) params
  | some v => if pvalFalsy v then setEntry "options" (.obj []) params else params

/-- Process one language-model node for fix #3: strip `model` and
`modelName`, and when something was stripped ensure a truthy `options`
container.  Returns the node, the number of removals, and the fix lines. -/
def stripNodeModelParams (n : NodeJ) : NodeJ × Nat × List String :=
  if falsyStr n.type ∨ falsyStr n.name then (n, 0, [])
  else if ¬ isLanguageModelNode (n.type.getD "") then (n, 0, [])
  else
    match n.parameters with
    | .map params =>
        let r1 := stripModelKey "model" params
        let r2 := stripModelKey "modelName" r1.1
        let removed := (if r1.2 then 1 else 0) + (if r2.2 then 1 else 0)
        if r1.2 ∨ r2.2 then
          ({n with parameters := .map (ensureOptions r2.1)}, removed,
           ["Removed hardcoded model parameter from LLM node \"" ++ n.name.getD "" ++
            "\" (type: " ++ n.type.getD "" ++ ")"])
        else (n, 0, [])
    | _ => (n, 0, [])

/-- `removeHardcodedModelParameters(workflow)`. -/
def removeHardcodedModelParameters (w : WorkflowJ) : WorkflowJ × Nat × List String :=
  match w.nodes with
  | none => (w, 0, [])
  | some nodes =>
      let r := nodes.foldl
        (fun (acc : List NodeJ × Nat × List String) n =>
          let s := stripNodeModelParams n
          (acc.1 ++ [s.1], acc.2.1 + s.2.1, acc.2.2 ++ s.2.2))
        ([], 0, [])
      ({w with nodes := some r.1}, r.2)

/-! ## CRITICAL FIX #4: `fixBackwardsToolConnections` -/

/-- One backwards connection found (agent → tool with `ai_tool`). -/
structure Backwards where
  agentName : String
  toolName  : String
  index     : Int
deriving Repr, DecidableEq

/-- Collect backwards connections: sources whose mapped type is
agent-kind, records of the `ai_tool` port whose target's mapped type is
tool-kind.  The recorded index is `conn.index || 0`. -/
def collectBackwards (tm : List (String × String)) (conns : Conns) : List Backwards :=
  conns.foldl
    (fun acc e =>
      match getEntry e.1 tm with
      | none => acc
      | some st =>
          if ¬ isAgentNode st then acc
          else
            e.2.foldl
              (fun acc2 pe =>
                if pe.1 = "ai_tool" then
                  pe.2.flatten.foldl
                    (fun acc3 c =>
                      match c.node with
                      | none => acc3
                      | some tgt =>
                          match getEntry tgt tm with
                          | none => acc3
                          | some tt =>
                              if isToolNode tt then
                                acc3 ++ [⟨e.1, tgt, c.index.getD 0⟩]
                              else acc3)
                    acc2
                else acc2)
              acc)
    []

/-- Apply one backwards-connection reversal to the adjacency object.
Fails (JS `TypeError`) when the tool already has an `ai_tool` port that
is the empty array, making `ai_tool[0]` undefined. -/
def applyBackwards (b : Backwards) (st : Conns × Nat × List String) :
    Except String (Conns × Nat × List String) := do
  let conns := st.1
  -- remove the backwards records from the agent entry
  let conns :=
    match getEntry b.agentName conns with
    | none => conns
    | some pm =>
        match getEntry "ai_tool" pm with
        | none => conns
        | some outs =>
            let outs' := (outs.map (fun arr =>
              arr.filter (fun c => ¬ c.node = some b.toolName))).filter
                (fun arr => arr.length > 0)
            let pm' :=
              if outs'.length = 0 then delEntry "ai_tool" pm
              else setEntry "ai_tool" outs' pm
            setEntry b.agentName pm' conns
  -- create the correct tool → agent connection
  let conns :=
    if (getEntry b.toolName conns).isSome then conns
    else setEntry b.toolName ([] : PortMap) conns
  let pm := (getEntry b.toolName conns).getD []
  let pm :=
    if (getEntry "ai_tool" pm).isSome then pm
    else setEntry "ai_tool" ([[]] : List (List Conn)) pm
  match getEntry "ai_tool" pm with
  | none => .error "TypeError: Cannot read properties of undefined (reading find)"
  | some outs =>
      match outs with
      | [] => .error "TypeError: Cannot read properties of undefined (reading find)"
      | slot0 :: rest =>
          if (slot0.find? (fun c => c.node = some b.agentName)).isSome then
            pure (setEntry b.toolName pm conns, st.2)
          else
            let slot0' := slot0 ++ [⟨some b.agentName, some "ai_tool", some b.index⟩]
            let pm' := setEntry "ai_tool" (slot0' :: rest) pm
            pure (setEntry b.toolName pm' conns, st.2.1 + 1,
              st.2.2 ++ ["Reversed backwards connection: tool \"" ++ b.toolName ++
                "\" now correctly connects TO agent \"" ++ b.agentName ++ "\""])

/-- `fixBackwardsToolConnections(workflow)`. -/
def fixBackwardsToolConnections (w : WorkflowJ) :
    Except String (WorkflowJ × Nat × List String) := do
  match w.connections, w.nodes with
  | some conns, some nodes =>
      let tm := buildTypeMap nodes
      let backwards := collectBackwards tm conns
      let r ← backwards.foldlM (fun st b => applyBackwards b st) (conns, 0, [])
      pure ({w with connections := some r.1}, r.2)
  | _, _ => pure (w, 0, [])

/-! ## CRITICAL FIX #5: `fixNodePositioning` -/

/-- Read coordinate `j` of a node position the way the source does after
the per-node repair loop has ensured a 2-element array (a missing array
would throw in JS; the pipeline call site makes that unreachable). -/
def posCoord (n : NodeJ) (j : Nat) : Int :=
  (n.position.getD []).getD j 0

/-- Reposition the node at list index `i` to `newPos` when it differs in
the first two coordinates; returns the updated list and whether a change
happened. -/
def repositionAt (nodes : List NodeJ) (i : Nat) (newPos : List Int) :
    List NodeJ × Bool :=
  match nodes.get? i with
  | none => (nodes, false)
  | some n =>
      if posCoord n 0 = newPos.getD 0 0 ∧ posCoord n 1 = newPos.getD 1 0 then
        (nodes, false)
      else (nodes.set i {n with position := some newPos}, true)

/-- Indexes of the current nodes satisfying `p`. -/
def idxWhere (nodes : List NodeJ) (p : NodeJ → Bool) : List Nat :=
  (nodes.enum.filter (fun q => p q.2)).map (·.1)

/-- Reposition one category of support nodes of one agent: fold the list
of (category position, node index) pairs through `repositionAt`. -/
def repositionCat (mkPos : Nat → List Int) (msg : String → String)
    (idxs : List Nat) (st : List NodeJ × Bool × List String) :
    List NodeJ × Bool × List String :=
  (idxs.enum).foldl
    (fun acc q =>
      let r := repositionAt acc.1 q.2 (mkPos q.1)
      if r.2 then
        (r.1, true, acc.2.2 ++
          [msg (showOpt ((acc.1.get? q.2).bind (·.name)))])
      else (r.1, acc.2))
    st

/-- `fixNodePositioning(workflow)`: for each strict AI agent, pin its
chat models below-left, memory nodes below-right and tools below-center. -/
def fixNodePositioning (w : WorkflowJ) : WorkflowJ × Bool × List String :=
  let nodes0 := w.nodes.getD []
  let agents := nodes0.filter (fun n => isAIAgentNode (n.type.getD ""))
  let step := fun (st : List NodeJ × Bool × List String) (agent : NodeJ) =>
    let ax := posCoord agent 0
    let ay := posCoord agent 1
    let nodes := st.1
    let lms := idxWhere nodes (fun n =>
      isChatModelNode (n.type.getD "") && isConnectedTo w.connections n.name agent.name)
    let mems := idxWhere nodes (fun n =>
      isMemoryNode (n.type.getD "") && isConnectedTo w.connections n.name agent.name)
    let tools := idxWhere nodes (fun n =>
      isToolNode (n.type.getD "") && isConnectedTo w.connections n.name agent.name)
    let st := repositionCat
      (fun j => [ax - 200, ay + 300 + (j : Int) * 150])
      (fun nm => "📍 Repositioned \"" ++ nm ++ "\" below-left of AI Agent")
      lms st
    let st := repositionCat
      (fun j => [ax + 200, ay + 300 + (j : Int) * 150])
      (fun nm => "📍 Repositioned \"" ++ nm ++ "\" below-right of AI Agent")
      mems st
    let st := repositionCat
      (fun j => [ax + ((j : Int) - (tools.length / 2 : Nat)) * 200, ay + 300])
      (fun nm => "📍 Repositioned \"" ++ nm ++ "\" below-center of AI Agent")
      tools st
    st
  let r := agents.foldl step (nodes0, false, [])
  ({w with nodes := some r.1}, r.2)

/-! ## CRITICAL FIX #6: `ensureDescriptiveNames` -/

/-- First pass of `ensureDescriptiveNames`: the set of existing truthy,
non-generic names. -/
def collectUsedNames (nodes : List NodeJ) : List String :=
  nodes.foldl
    (fun used n =>
      match n.name with
      | some s => if s ≠ "" ∧ ¬ isGenericName s then setAdd s used else used
      | none => used)
    []

/-- Move the adjacency entry keyed `old` to key `new` (source side of a
rename): `connections[new] = connections[old]; delete connections[old]`. -/
def moveConnKey (old new : String) (conns : Conns) : Conns :=
  match getEntry old conns with
  | none => conns
  | some pm => delEntry old (setEntry new pm conns)

/-- The target rename `old → new` applied inside one port map. -/
def pmRename (old new : String) (pm : PortMap) : PortMap :=
  pm.map (fun pe => (pe.1,
    pe.2.map (fun arr => arr.map (fun c =>
      if c.node = some old then {c with node := some new} else c))))

/-- Rewrite every connection record whose target is `old` to target
`new`. -/
def renameTargets (old new : String) (conns : Conns) : Conns :=
  conns.map (fun e => (e.1, pmRename old new e.2))

/-- Number of connection records of one port map whose target is `t`. -/
def cntT (t : String) (pm : PortMap) : Nat :=
  (pmRecords pm).countP (fun c => c.node == some t)

/-- Number of connection records of a whole adjacency object whose
target is `t`. -/
def tgtCount (t : String) (cs : Conns) : Nat :=
  (cs.map (fun e => cntT t e.2)).sum

/-- `ensureDescriptiveNames(workflow)`: rename nodes whose name is falsy
or matches the generic pattern, uniquified against the used-name set, and
rewrite the adjacency map (key side and target side) for the old name. -/
def ensureDescriptiveNames (w : WorkflowJ) : WorkflowJ × Bool × List String :=
  match w.nodes with
  | none => (w, false, [])
  | some nodes =>
      let used0 := collectUsedNames nodes
      let step := fun (st : List NodeJ × Option Conns × List String × List String × Bool)
          (n : NodeJ) =>
        let (done, conns, used, fixes, changed) := st
        if falsyStr n.name ∨ isGenericName (n.name.getD "") then
          let newName := uniquify (getSuggestedNodeName n.type) used
          let oldName := n.name
          let conns' :=
            if conns.isSome ∧ ¬ falsyStr oldName then
              (conns.map (fun cs =>
                renameTargets (oldName.getD "") newName
                  (moveConnKey (oldName.getD "") newName cs)))
            else conns
          (done ++ [{n with name := some newName}], conns', setAdd newName used,
           fixes ++ ["Renamed generic \"" ++ showOpt oldName ++ "\" to \"" ++
             newName ++ "\""],
           true)
        else (done ++ [n], conns, used, fixes, changed)
      let r := nodes.foldl step ([], w.connections, used0, [], false)
      ({w with nodes := some r.1, connections := r.2.1}, r.2.2.2.2, r.2.2.2.1)

/-! ## CRITICAL FIX #7: `normalizeAIToolIndexes` -/

/-- Normalize one source entry: every `ai_tool` record that carries an
`index` field gets index 0; emits a fix line per change. -/
def normalizeEntry (e : String × PortMap) : (String × PortMap) × Nat × List String :=
  match getEntry "ai_tool" e.2 with
  | none => (e, 0, [])
  | some outs =>
      let r := outs.foldl
        (fun (acc : List (List Conn) × Nat × List String) arr =>
          let r2 := arr.foldl
            (fun (acc2 : List Conn × Nat × List String) c =>
              match c.index with
              | some i =>
                  if i ≠ 0 then
                    (acc2.1 ++ [{c with index := some 0}], acc2.2.1 + 1,
                     acc2.2.2 ++ ["Fixed ai_tool connection from \"" ++ e.1 ++
                       "\" to \"" ++ showOpt c.node ++ "\": index " ++ toString i ++
                       " -> 0"])
                  else (acc2.1 ++ [c], acc2.2)
              | none => (acc2.1 ++ [c], acc2.2))
            ([], 0, [])
          (acc.1 ++ [r2.1], acc.2.1 + r2.2.1, acc.2.2 ++ r2.2.2))
        ([], 0, [])
      ((e.1, setEntry "ai_tool" r.1 e.2), r.2)

/-- `normalizeAIToolIndexes(workflow)`. -/
def normalizeAIToolIndexes (w : WorkflowJ) : WorkflowJ × Nat × List String :=
  match w.connections with
  | none => (w, 0, [])
  | some conns =>
      let r := conns.foldl
        (fun (acc : Conns × Nat × List String) e =>
          let r2 := normalizeEntry e
          (acc.1 ++ [r2.1], acc.2.1 + r2.2.1, acc.2.2 ++ r2.2.2))
        ([], 0, [])
      ({w with connections := some r.1}, r.2)

/-! ## CRITICAL FIX #8: `replaceDeprecatedNodes` -/

/-- Replace deprecated node types with their canonical successors and
regenerate the node display name. -/
def replaceDeprecatedNodes (w : WorkflowJ) : WorkflowJ × Bool × List String :=
  match w.nodes with
  | none => (w, false, [])
  | some nodes =>
      let r := nodes.foldl
        (fun (acc : List NodeJ × Bool × List String) n =>
          if falsyStr n.type then (acc.1 ++ [n], acc.2)
          else
            match getEntry (n.type.getD "") DEPRECATED_NODES with
            | none => (acc.1 ++ [n], acc.2)
            | some newType =>
                let newName := getSuggestedNodeName (some newType)
                (acc.1 ++ [{n with type := some newType, name := some newName}], true,
                 acc.2.2 ++ ["Replaced deprecated node \"" ++ n.type.getD "" ++
                   "\" with \"" ++ newType ++ "\" (name: \"" ++ newName ++ "\")"]))
        ([], false, [])
      ({w with nodes := some r.1}, r.2)

/-! ## VALIDATION: `validateAIAgentRequirements` -/

/-- The constant tail of the invalid-model-type error message. -/
def requiredModelTypesJoined : String :=
  strJoin ", " REQUIRED_MODEL_TYPES

/-- `validateAIAgentRequirements(workflow)`: every strict AI agent must
have an `ai_languageModel` source of a required chat-model type and an
`ai_memory` source of a memory kind; missing tools is a warning only. -/
def validateAIAgentRequirements (w : WorkflowJ) : List String × List String :=
  match w.nodes with
  | none => ([], [])
  | some nodes =>
      let aiAgents := nodes.filter (fun n => isAIAgentNode (n.type.getD ""))
      if aiAgents.isEmpty then ([], [])
      else
        aiAgents.foldl
          (fun (acc : List String × List String) agent =>
            let nm := showOpt agent.name
            let modelErrs :=
              match findConnectedNodeByType nodes w.connections agent.name
                  "ai_languageModel" with
              | none => ["Agent \"" ++ nm ++ "\" missing language model connection " ++
                  "(required: lmChatOpenAi/Anthropic/Gemini/Groq/Ollama)"]
              | some modelNode =>
                  if (modelNode.type.map (REQUIRED_MODEL_TYPES.contains ·)).getD false then
                    []
                  else
                    ["Agent \"" ++ nm ++ "\" has invalid model type \"" ++
                     showOpt modelNode.type ++ "\" (expected one of: " ++
                     requiredModelTypesJoined ++ ")"]
            let memErrs :=
              match findConnectedNodeByType nodes w.connections agent.name "ai_memory" with
              | none => ["Agent \"" ++ nm ++ "\" missing memory connection " ++
                  "(required: memoryBufferWindow or similar)"]
              | some memoryNode =>
                  if isMemoryNode (memoryNode.type.getD "") then []
                  else ["Agent \"" ++ nm ++ "\" has invalid memory type \"" ++
                    showOpt memoryNode.type ++ "\""]
            let hasTools := (w.connections.getD []).any (fun e =>
              match getEntry "ai_tool" e.2 with
              | some outs => outs.flatten.any (fun c => c.node = agent.name &&
                  c.node.isSome || c.node.isNone && agent.name.isNone)
              | none => false)
            let toolWarns :=
              if hasTools then []
              else ["Agent \"" ++ nm ++ "\" has no tools connected - agent may have " ++
                "limited capabilities"]
            (acc.1 ++ modelErrs ++ memErrs, acc.2 ++ toolWarns))
          ([], [])

/-! ## CRITICAL FIX #9: `removeOverlinking` -/

/-- The IF/Switch test of `removeOverlinking`
(`sourceNodeObj?.type === 'n8n-nodes-base.if' || ... switch'`). -/
def isConditionalSource (nodes : List NodeJ) (s : String) : Bool :=
  ((nodes.find? (fun n => n.name = some s)).map (fun n =>
    n.type == some "n8n-nodes-base.if" ||
    n.type == some "n8n-nodes-base.switch")).getD false

/-- Prune one source entry: when the node is not an IF/Switch conditional
and its first `main` output slot holds more than one record, keep only
the first record of that slot. -/
def overlinkEntry (nodes : List NodeJ) (e : String × PortMap) :
    (String × PortMap) × Nat × List String :=
  match getEntry "main" e.2 with
  | none => (e, 0, [])
  | some outs =>
      match outs with
      | [] => (e, 0, [])
      | slot0 :: rest =>
          if slot0.length ≤ 1 then (e, 0, [])
          else
            if isConditionalSource nodes e.1 then (e, 0, [])
            else
              match slot0 with
              | [] => (e, 0, [])
              | first :: removed =>
                  ((e.1, setEntry "main" ([first] :: rest) e.2), removed.length,
                   removed.map (fun c =>
                     "Removed over-linking: \"" ++ e.1 ++ "\" no longer connects to \"" ++
                     showOpt c.node ++ "\" (keeping linear flow to \"" ++
                     showOpt first.node ++ "\")"))

/-- `removeOverlinking(workflow)`. -/
def removeOverlinking (w : WorkflowJ) : WorkflowJ × Nat × List String :=
  match w.connections with
  | none => (w, 0, [])
  | some conns =>
      let r := conns.foldl
        (fun (acc : Conns × Nat × List String) e =>
          let r2 := overlinkEntry (w.nodes.getD []) e
          (acc.1 ++ [r2.1], acc.2.1 + r2.2.1, acc.2.2 ++ r2.2.2))
        ([], 0, [])
      ({w with connections := some r.1}, r.2)

/-! ## CRITICAL FIX #10: `rebuildOrphanedConnections` -/

/-- The set of names that receive at least one connection (records with a
truthy `node` field). -/
def incomingNames (conns : Conns) : List String :=
  (connsRecords conns).foldl
    (fun acc p =>
      match p.2.node with
      | some t => if t = "" then acc else setAdd t acc
      | none => acc)
    []

/-- Append a `main` record from source key `srcKey` to the orphan; fails
(JS `TypeError`) when the source already has `main = []`, making
`main[0]` undefined. -/
def pushMainConn (srcKey : String) (orphanName : Option String) (conns : Conns) :
    Except String Conns := do
  let conns :=
    if (getEntry srcKey conns).isSome then conns
    else setEntry srcKey ([] : PortMap) conns
  let pm := (getEntry srcKey conns).getD []
  let pm :=
    if (getEntry "main" pm).isSome then pm
    else setEntry "main" ([[]] : List (List Conn)) pm
  match getEntry "main" pm with
  | none => .error "TypeError: Cannot read properties of undefined (reading push)"
  | some outs =>
      match outs with
      | [] => .error "TypeError: Cannot read properties of undefined (reading push)"
      | slot0 :: rest =>
          let slot0' := slot0 ++ [⟨orphanName, some "main", some 0⟩]
          pure (setEntry srcKey (setEntry "main" (slot0' :: rest) pm) conns)

/-- Handle one node of `rebuildOrphanedConnections`; `incoming` is the
static incoming-name set computed before the loop. -/
def rebuildOrphanStep (nodes : List NodeJ) (incoming : List String)
    (st : Conns × Nat × List String) (node : NodeJ) :
    Except String (Conns × Nat × List String) := do
  let conns := st.1
  let key := showOpt node.name
  let hasOutgoing :=
    match getEntry key conns with
    | some pm => ¬ pm.isEmpty
    | none => false
  let hasIncoming :=
    match node.name with
    | some nm => incoming.contains nm
    | none => false
  if hasOutgoing || hasIncoming then pure st
  else if isAIAgentNode (node.type.getD "") then pure st
  else
    let isToolNodeType := isLangChainTool (node.type.getD "") ||
      isServiceTool (node.type.getD "")
    let agents := nodes.filter (fun n => isAIAgentNode (n.type.getD ""))
    if isToolNodeType then
      match agents with
      | [] => pure st
      | nearestAgent :: _ =>
          let conns :=
            if (getEntry key conns).isSome then conns
            else setEntry key ([] : PortMap) conns
          let pm := (getEntry key conns).getD []
          let pm := setEntry "ai_tool"
            ([[⟨nearestAgent.name, some "ai_tool", some 0⟩]] : List (List Conn)) pm
          pure (setEntry key pm conns, st.2.1 + 1,
            st.2.2 ++ ["Rebuilt ai_tool connection: \"" ++ showOpt node.name ++
              "\" → \"" ++ showOpt nearestAgent.name ++ "\""])
    else
      match agents with
      | agent :: _ =>
          let conns' ← pushMainConn (showOpt agent.name) node.name conns
          pure (conns', st.2.1 + 1,
            st.2.2 ++ ["Reconnected orphaned node \"" ++ showOpt node.name ++
              "\" from agent output \"" ++ showOpt agent.name ++ "\""])
      | [] =>
          match nodes.find? (fun n =>
              ¬ strIncludes (strLower (n.type.getD "")) "trigger" &&
              ¬ n.name = node.name) with
          | none => pure st
          | some targetNode =>
              let conns' ← pushMainConn (showOpt targetNode.name) node.name conns
              pure (conns', st.2.1 + 1,
                st.2.2 ++ ["Reconnected orphaned node \"" ++ showOpt node.name ++
                  "\" from \"" ++ showOpt targetNode.name ++ "\""])

/-- `rebuildOrphanedConnections(workflow)`. -/
def rebuildOrphanedConnections (w : WorkflowJ) :
    Except String (WorkflowJ × Nat × List String) := do
  match w.nodes with
  | none => pure (w, 0, [])
  | some nodes =>
      let conns0 := w.connections.getD []
      let incoming := incomingNames conns0
      let r ← nodes.foldlM (rebuildOrphanStep nodes incoming) (conns0, 0, [])
      pure ({w with connections := some r.1}, r.2)

/-! ## `applyAutoFixes`: the inline normalization loop -/

/-- Deterministic stand-in for `uuidv4()` (only the presence of the `id`
is ever observed). -/
def uuidModel (i : Nat) : String := "uuid-" ++ toString i

/-- `node.name || 'unnamed'`. -/
def orUnnamed (name : Option String) : String :=
  if falsyStr name then "unnamed" else name.getD ""

/-- ``node.name || `at index ${i}` ``. -/
def orAtIndex (name : Option String) (i : Nat) : String :=
  if falsyStr name then "at index " ++ toString i else name.getD ""

/-- `nodeNameCounts`: first pass of `applyAutoFixes`, counting truthy
original node names. -/
def nameCounts (nodes : List NodeJ) : List (String × Nat) :=
  nodes.foldl
    (fun m n =>
      if ¬ falsyStr n.name then
        let k := n.name.getD ""
        setEntry k ((getEntry k m).getD 0 + 1) m
      else m)
    []

/-- The per-node body of the second `applyAutoFixes` pass (type, type
format, name, id, position, parameters, empty-parameter placeholders,
placeholder credentials), given the original-name counts, the set of
already-assigned names and the node index.  Returns the fixed node, the
updated name set, the fix lines, and the `fixed` contribution. -/
def inlineNodeFixes (counts : List (String × Nat)) (names : List String)
    (i : Nat) (node : NodeJ) : NodeJ × List String × List String × Bool :=
  -- missing node type
  let (node, fixes, fixed) :=
    if falsyStr node.type then
      ({node with type := some "n8n-nodes-base.httpRequest"},
       ["✅ Added missing node type for node \"" ++ orUnnamed node.name ++ "\""], true)
    else (node, [], false)
  -- invalid type format
  let (node, fixes, fixed) :=
    if ¬ falsyStr node.type ∧ ¬ strIncludes (node.type.getD "") "." then
      let oldType := node.type.getD ""
      ({node with type := some ("n8n-nodes-base." ++ oldType)},
       fixes ++ ["✅ Fixed node type format: \"" ++ oldType ++ "\" → \"n8n-nodes-base." ++
         oldType ++ "\""], true)
    else (node, fixes, fixed)
  -- missing, duplicate, or generic node name
  let nameBad :=
    if falsyStr node.name then true
    else
      let nm := node.name.getD ""
      (getEntry nm counts).getD 0 > 1 ∨ isGenericName nm
  let (node, fixes, fixed) :=
    if nameBad then
      let descriptiveName := generateDescriptiveName node i
      let uniqueName := uniquify descriptiveName names
      let oldName := node.name
      let msg :=
        if falsyStr oldName then "✅ Added descriptive name: \"" ++ uniqueName ++ "\""
        else if isGenericName (oldName.getD "") then
          "✅ Renamed generic \"" ++ oldName.getD "" ++ "\" → \"" ++ uniqueName ++ "\""
        else
          "✅ Resolved duplicate name: \"" ++ oldName.getD "" ++ "\" → \"" ++
            uniqueName ++ "\""
      ({node with name := some uniqueName}, fixes ++ [msg], true)
    else (node, fixes, fixed)
  let names := setAdd (node.name.getD "") names
  -- missing id
  let (node, fixes, fixed) :=
    if falsyStr node.id then
      ({node with id := some (uuidModel i)},
       fixes ++ ["✅ Added ID to node \"" ++ showOpt node.name ++ "\""], true)
    else (node, fixes, fixed)
  -- missing / invalid position
  let posBad :=
    match node.position with
    | none => true
    | some l => l.length ≠ 2
  let (node, fixes, fixed) :=
    if posBad then
      ({node with position := some [100 + (i : Int) * 200, 250]},
       fixes ++ ["✅ Set default position for node \"" ++ showOpt node.name ++ "\""], true)
    else (node, fixes, fixed)
  -- missing parameters
  let (node, fixes, fixed) :=
    match node.parameters with
    | .map _ => (node, fixes, fixed)
    | _ =>
        ({node with parameters := .map []},
         fixes ++ ["✅ Added empty parameters object for node \"" ++
           showOpt node.name ++ "\""], true)
  -- empty parameter placeholders
  let params :=
    match node.parameters with
    | .map l => l
    | _ => []
  let pr := params.foldl
    (fun (acc : List (String × PVal) × List String × Bool) p =>
      if p.2 = .str "" then
        (acc.1 ++ [(p.1, .str ("placeholder-" ++ p.1))],
         acc.2.1 ++ ["✅ Replaced empty \"" ++ p.1 ++
           "\" parameter with placeholder in \"" ++ showOpt node.name ++ "\""], true)
      else (acc.1 ++ [p], acc.2))
    ([], fixes, fixed)
  let node := {node with parameters := .map pr.1}
  let fixes := pr.2.1
  let fixed := pr.2.2
  -- placeholder credentials
  let nodeTypeSimple := strLower ((strSplitOn (node.type.getD "") ".").getLast?.getD "")
  let (node, fixes, fixed) :=
    match credentialMappings.find? (fun m => strIncludes nodeTypeSimple m.1) with
    | some (kw, credType, credName) =>
        if node.credentials.isNone then
          ({node with credentials := some [(credType, .obj
             [("id", .str ("placeholder-" ++ kw ++ "-" ++ toString i)),
              ("name", .str credName)])]},
           fixes ++ ["✅ Added placeholder credentials for node \"" ++
             showOpt node.name ++ "\""], true)
        else (node, fixes, fixed)
    | none => (node, fixes, fixed)
  (node, names, fixes, fixed)

/-- The whole second pass over the nodes. -/
def inlineFixAllNodes (nodes : List NodeJ) :
    List NodeJ × List String × Bool :=
  let counts := nameCounts nodes
  let r := nodes.enum.foldl
    (fun (acc : List NodeJ × List String × List String × Bool) q =>
      let s := inlineNodeFixes counts acc.2.1 q.1 q.2
      (acc.1 ++ [s.1], s.2.1, acc.2.2.1 ++ s.2.2.1, acc.2.2.2 || s.2.2.2))
    ([], [], [], false)
  (r.1, r.2.2)

/-! ## `applyAutoFixes`: intelligent auto-connection and connection cleanup -/

/-- FlowEngine feature #9: when there is more than one node but no
connection at all, wire a single trigger to a single action, or chain the
first trigger with all action nodes. -/
def autoConnect (w : WorkflowJ) : WorkflowJ × List String × Bool :=
  let nodes := w.nodes.getD []
  let noConns :=
    match w.connections with
    | none => true
    | some cs => cs.isEmpty
  if decide (nodes.length > 1) && noConns then
    let triggerNodes := nodes.filter (fun n => isTriggerNode (n.type.getD ""))
    let actionNodes := nodes.filter (fun n => ¬ isTriggerNode (n.type.getD ""))
    match triggerNodes, actionNodes with
    | [t], [a] =>
        let cs : Conns := [(showOpt t.name, [("main", [[⟨a.name, some "main", some 0⟩]])])]
        ({w with connections := some cs},
         ["✅ Connected trigger \"" ++ showOpt t.name ++ "\" → \"" ++
          showOpt a.name ++ "\""], true)
    | t :: _, _ :: _ =>
        let flow := t :: actionNodes
        let cs := (flow.zip flow.tail).foldl
          (fun cs p =>
            setEntry (showOpt p.1.name)
              ([("main", [[⟨p.2.name, some "main", some 0⟩]])] : PortMap) cs)
          ([] : Conns)
        ({w with connections := some cs},
         ["✅ Created sequential connections: " ++
          strJoin " → " (flow.map (fun n => showOpt n.name))], true)
    | _, _ => (w, [], false)
  else (w, [], false)

/-- FlowEngine features #10 and #7: drop adjacency entries keyed by a
non-existent source, drop records targeting a non-existent node, and drop
duplicate records (same source, target, type and index) within one output
slot. -/
def cleanupConnections (w : WorkflowJ) : WorkflowJ × List String × Bool :=
  match w.connections with
  | none => (w, [], false)
  | some conns =>
      let hasName := fun (s : String) =>
        (w.nodes.getD []).any (fun n => n.name = some s)
      let r := conns.foldl
        (fun (acc : Conns × List String × Bool) e =>
          if ¬ hasName e.1 then
            (acc.1, acc.2.1 ++ ["✅ Removed connections from non-existent source \"" ++
              e.1 ++ "\""], true)
          else
            let pr := e.2.foldl
              (fun (acc2 : PortMap × List String × Bool) pe =>
                let sr := pe.2.foldl
                  (fun (acc3 : List (List Conn) × List String × Bool) slot =>
                    let fr := slot.foldl
                      (fun (acc4 : List Conn × List String × List String × Bool) c =>
                        if falsyStr c.node ∨ ¬ hasName (c.node.getD "") then
                          (acc4.1, acc4.2.1,
                           acc4.2.2.1 ++ ["✅ Removed connection from \"" ++ e.1 ++
                             "\" to non-existent node \"" ++ showOpt c.node ++ "\""],
                           true)
                        else
                          let key := e.1 ++ "->" ++ c.node.getD "" ++ ":" ++
                            showOpt c.type ++ ":" ++ showOptInt c.index
                          if acc4.2.1.contains key then
                            (acc4.1, acc4.2.1,
                             acc4.2.2.1 ++ ["✅ Removed duplicate connection from \"" ++
                               e.1 ++ "\" to \"" ++ c.node.getD "" ++ "\""], true)
                          else
                            (acc4.1 ++ [c], acc4.2.1 ++ [key], acc4.2.2))
                      ([], [], acc3.2)
                    (acc3.1 ++ [fr.1], fr.2.2))
                  ([], acc2.2)
                (acc2.1 ++ [(pe.1, sr.1)], sr.2))
              ([], acc.2)
            (acc.1 ++ [(e.1, pr.1)], pr.2))
        ([], [], false)
      ({w with connections := some r.1}, r.2)

/-! ## `applyAutoFixes`: the full pipeline -/

/-- Decidable equality for `Except` results. -/
instance [DecidableEq ε] [DecidableEq α] : DecidableEq (Except ε α) := fun a b =>
  match a, b with
  | .error e, .error e' =>
      match decEq e e' with
      | isTrue h => isTrue (by rw [h])
      | isFalse h => isFalse (by intro hh; cases hh; exact h rfl)
  | .ok v, .ok v' =>
      match decEq v v' with
      | isTrue h => isTrue (by rw [h])
      | isFalse h => isFalse (by intro hh; cases hh; exact h rfl)
  | .error _, .ok _ => isFalse (by intro h; cases h)
  | .ok _, .error _ => isFalse (by intro h; cases h)

/-- The result object of `applyAutoFixes`. -/
structure FixResult where
  fixed    : Bool
  workflow : WorkflowJ
  fixes    : List String
  warnings : List String
deriving Repr, DecidableEq

/-- The pipeline tail of `applyAutoFixes` from fix #5 on (node
positioning, descriptive names, `ai_tool` index normalization,
over-linking removal, and — gated on strict AI agents — orphan
reconnection). -/
def afterFix4 (workflow : WorkflowJ) (fixes : List String)
    (warnings : List String) (fixed : Bool) : Except String FixResult := do
  -- CRITICAL FIX #5
  let r5 := fixNodePositioning workflow
  let workflow := r5.1
  let fixes :=
    if r5.2.1 then
      fixes ++ ["✅ [FIX-5] Fixed node positioning for AI agent support nodes"] ++
        r5.2.2.map (fun f => "    → " ++ f)
    else fixes
  let fixed := if r5.2.1 then true else fixed
  -- CRITICAL FIX #6
  let r6 := ensureDescriptiveNames workflow
  let workflow := r6.1
  let fixes :=
    if r6.2.1 then
      fixes ++ ["✅ [FIX-6] Ensured descriptive names for all nodes"] ++
        r6.2.2.map (fun f => "    → " ++ f)
    else fixes
  let fixed := if r6.2.1 then true else fixed
  -- CRITICAL FIX #7
  let r7 := normalizeAIToolIndexes workflow
  let workflow := r7.1
  let fixes :=
    if r7.2.1 > 0 then
      fixes ++ ["✅ [FIX-7] Normalized " ++ toString r7.2.1 ++
        " ai_tool connection indexes to 0"] ++
        r7.2.2.map (fun f => "    → " ++ f)
    else fixes
  let fixed := if r7.2.1 > 0 then true else fixed
  -- CRITICAL FIX #9
  let r9 := removeOverlinking workflow
  let workflow := r9.1
  let fixes :=
    if r9.2.1 > 0 then
      fixes ++ ["✅ [FIX-9] Removed " ++ toString r9.2.1 ++
        " excess connections (over-linking)"] ++
        r9.2.2.map (fun f => "    → " ++ f)
    else fixes
  let fixed := if r9.2.1 > 0 then true else fixed
  -- CRITICAL FIX #10 (gated on strict AI agents)
  let hasAIAgentsInWorkflow :=
    (workflow.nodes.getD []).any (fun n => isAIAgentNode (n.type.getD ""))
  if hasAIAgentsInWorkflow then
    let r10 ← rebuildOrphanedConnections workflow
    let workflow := r10.1
    let fixes :=
      if r10.2.1 > 0 then
        fixes ++ ["✅ [FIX-10] Rebuilt " ++ toString r10.2.1 ++
          " orphaned node connections"] ++
          r10.2.2.map (fun f => "    → " ++ f)
      else fixes
    let fixed := if r10.2.1 > 0 then true else fixed
    pure ⟨fixed, workflow, fixes, warnings⟩
  else
    pure ⟨fixed, workflow, fixes, warnings⟩

/-- `applyAutoFixes(workflowJson)`: deep-clone (identity in the pure
model), inline normalization, auto-connection, connection cleanup, then
the critical AI fixes in source order (#8, agent validation, #1, #2, #3,
#4, #5, #6, #7, #9, and #10 gated on the presence of a strict AI agent). -/
def applyAutoFixes (wj : WorkflowJ) : Except String FixResult := do
  let workflow := wj
  match workflow.nodes with
  | none => pure ⟨false, workflow, [], []⟩
  | some nodes0 =>
      -- FlowEngine feature #6: missing workflow name
      let (workflow, fixes, fixed) :=
        if falsyStr workflow.name then
          ({workflow with name := some "My Workflow"},
           ["✅ Added missing workflow name"], true)
        else (workflow, [], false)
      -- FlowEngine feature #7: ensure the connections object exists
      let (workflow, fixes, fixed) :=
        if workflow.connections.isNone then
          ({workflow with connections := some []},
           fixes ++ ["✅ Added missing connections object"], true)
        else (workflow, fixes, fixed)
      -- per-node loop
      let ir := inlineFixAllNodes nodes0
      let workflow := {workflow with nodes := some ir.1}
      let fixes := fixes ++ ir.2.1
      let fixed := fixed || ir.2.2
      -- intelligent auto-connection
      let ar := autoConnect workflow
      let workflow := ar.1
      let fixes := fixes ++ ar.2.1
      let fixed := fixed || ar.2.2
      -- invalid and duplicate connection removal
      let cr := cleanupConnections workflow
      let workflow := cr.1
      let fixes := fixes ++ cr.2.1
      let fixed := fixed || cr.2.2
      -- CRITICAL FIX #8
      let r8 := replaceDeprecatedNodes workflow
      let workflow := r8.1
      let (fixes, fixed) :=
        if r8.2.1 then
          (fixes ++ ["✅ [FIX-8] Replaced deprecated node types"] ++
            r8.2.2.map (fun f => "    → " ++ f), true)
        else (fixes, fixed)
      -- agent-requirements validation (warnings only)
      let vr := validateAIAgentRequirements workflow
      let warnings := vr.1.map (fun e => "⚠️ " ++ e) ++ vr.2
      -- CRITICAL FIX #1
      let r1 := removeInvalidAIToolConnections workflow
      let workflow := r1.1
      let (fixes, fixed) :=
        if r1.2 > 0 then
          (fixes ++ ["✅ [FIX-1] Removed " ++ toString r1.2 ++
            " invalid ai_tool connections from regular nodes"], true)
        else (fixes, fixed)
      -- CRITICAL FIX #2
      let r2 := convertRegularNodesToTools workflow
      let workflow := r2.1
      let (fixes, fixed) :=
        if r2.2.1 > 0 then
          (fixes ++ ["✅ [FIX-2] Converted " ++ toString r2.2.1 ++
            " regular nodes to tool variants"] ++
            r2.2.2.map (fun f => "    → " ++ f), true)
        else (fixes, fixed)
      -- CRITICAL FIX #3
      let r3 := removeHardcodedModelParameters workflow
      let workflow := r3.1
      let (fixes, fixed) :=
        if r3.2.1 > 0 then
          (fixes ++ ["✅ [FIX-3] Removed " ++ toString r3.2.1 ++
            " hardcoded model parameters from LLM nodes"] ++
            r3.2.2.map (fun f => "    → " ++ f), true)
        else (fixes, fixed)
      -- CRITICAL FIX #4
      let r4 ← fixBackwardsToolConnections workflow
      let workflow := r4.1
      let (fixes, fixed) :=
        if r4.2.1 > 0 then
          (fixes ++ ["✅ [FIX-4] Fixed " ++ toString r4.2.1 ++
            " backwards tool connections"] ++
            r4.2.2.map (fun f => "    → " ++ f), true)
        else (fixes, fixed)
      -- CRITICAL FIXES #5, #6, #7, #9, #10 (the pipeline tail)
      afterFix4 workflow fixes warnings fixed

/-! ## `validateConnections` -/

/-- `nodeNames.has(s)` — does some node carry the name `s`? -/
def hasNameB (nodes : List NodeJ) (s : String) : Bool :=
  nodes.any (fun n => n.name = some s)

/-- One iteration of the per-record loop of `validateConnections`
(validator.ts 1418-1445): the accumulator is
`(errors, connectedNodes, connectionPairs)`. -/
def vcRecStep (nodes : List NodeJ) (src : String)
    (acc2 : List String × List String × List (String × Nat)) (c : Conn) :
    List String × List String × List (String × Nat) :=
  match c.node with
  | none => acc2
  | some t =>
      if ¬ hasNameB nodes t then
        (acc2.1 ++ ["❌ CRITICAL: Connection target \"" ++ t ++
          "\" does not match any node name (from \"" ++ src ++ "\")"],
         acc2.2)
      else
        let key := src ++ "->" ++ t
        (acc2.1, setAdd t acc2.2.1,
         setEntry key ((getEntry key acc2.2.2).getD 0 + 1) acc2.2.2)

/-- One iteration of the per-source loop of `validateConnections`
(validator.ts 1409-1448). -/
def vcEntryStep (nodes : List NodeJ)
    (acc : List String × List String × List (String × Nat))
    (e : String × PortMap) :
    List String × List String × List (String × Nat) :=
  if ¬ hasNameB nodes e.1 then
    (acc.1 ++ ["❌ CRITICAL: Connection source \"" ++ e.1 ++
      "\" does not match any node name"], acc.2)
  else
    (pmRecords e.2).foldl (vcRecStep nodes e.1)
      (acc.1, setAdd e.1 acc.2.1, acc.2.2)

/-- The duplicate-connection warning rendered for a `source->target` pair
key with its occurrence count (validator.ts 1487-1492). -/
def dupWarning (key : String) (c : Nat) : String :=
  let parts := strSplitOn key "->"
  "Duplicate connection detected: \"" ++ parts.headD "undefined" ++
  "\" is linked to \"" ++ (parts.getD 1 "undefined") ++ "\" " ++
  toString c ++ " times"

/-- `validateConnections(nodes, connections)`: dangling references are
fatal errors, hanging nodes are fatal errors with kind-specific messages,
duplicate `source->target` pairs are warnings. -/
def validateConnections (nodes : List NodeJ) (connections : Conns) :
    List String × List String :=
  let scan := connections.foldl (vcEntryStep nodes) ([], [], [])
  let errors := scan.1
  let connectedNodes := scan.2.1
  let connectionPairs := scan.2.2
  let unconnectedNodes := nodes.filter (fun n =>
    match n.name with
    | some s => ¬ connectedNodes.contains s
    | none => true)
  let hangErrors := unconnectedNodes.foldl
    (fun (acc : List String) n =>
      let nodeType := n.type.getD ""
      let nm := showOpt n.name
      if nodeType = "n8n-nodes-base.stickyNote" then acc
      else if isTriggerNode nodeType then
        acc ++ ["❌ HANGING TRIGGER: \"" ++ nm ++
          "\" is not connected - workflow can\x27t start. " ++
          "Connect this trigger to the first action node."]
      else if isToolNode nodeType then
        acc ++ ["❌ HANGING TOOL: \"" ++ nm ++
          "\" is not connected via ai_tool to any agent. " ++
          "Connect this tool to an AI agent."]
      else if isLanguageModelNode nodeType then
        acc ++ ["❌ HANGING LLM: \"" ++ nm ++
          "\" is not connected via ai_languageModel to any agent. " ++
          "Connect this model to an AI agent."]
      else if isMemoryNode nodeType then
        acc ++ ["❌ HANGING MEMORY: \"" ++ nm ++
          "\" is not connected via ai_memory to any agent. " ++
          "Connect this memory to an AI agent."]
      else
        acc ++ ["❌ HANGING NODE: \"" ++ nm ++
          "\" is not connected to workflow. " ++
          "Every node must have at least one connection."])
    []
  let warnings := (connectionPairs.filter (fun p => p.2 > 1)).map
    (fun p => dupWarning p.1 p.2)
  (errors ++ hangErrors, warnings)

/-- Does the record `c`, reached from source `src`, contribute to the
duplicate-pair counter under key `k`?  It does exactly when its target
exists, carries a node name, and `src ++ "->" ++ target` is `k` —
regardless of the record's port kind or index. -/
def recMatches (nodes : List NodeJ) (src k : String) (c : Conn) : Bool :=
  match c.node with
  | some t => hasNameB nodes t && (src ++ "->" ++ t == k)
  | none => false

/-- The total multiplicity the scan of `validateConnections` records
under the pair key `k`: over every source entry whose name resolves,
the number of its records matching `k`. -/
def keyOcc (nodes : List NodeJ) (connections : Conns) (k : String) : Nat :=
  (connections.map (fun e =>
    if hasNameB nodes e.1 then
      (pmRecords e.2).countP (recMatches nodes e.1 k)
    else 0)).sum

/-! ## Schema validation (the zod `WorkflowSchema`)

The checks that are expressible in this data model are implemented
faithfully (required `name`, the `type` prefix regex, positive
`typeVersion`, 2-element `position`, object `parameters`, non-empty
`nodes`); the zod error message text is schematic (`❌ path: message`) —
no claim inspects those strings. -/

/-- Schema errors in zod traversal order. -/
def schemaErrors (w : WorkflowJ) : List String :=
  match w.nodes with
  | none => ["❌ nodes: Required"]
  | some [] => ["❌ nodes: Array must contain at least 1 element(s)"]
  | some ns =>
      (ns.enum.map (fun q =>
        let i := toString q.1
        let n := q.2
        (match n.name with
         | none => ["❌ nodes." ++ i ++ ".name: Required"]
         | some _ => []) ++
        (match n.type with
         | none => ["❌ nodes." ++ i ++ ".type: Required"]
         | some t =>
             if strStarts t "n8n-nodes-base." ∨ strStarts t "@n8n/" ∨
                 strStarts t "n8n-nodes-" then []
             else ["❌ nodes." ++ i ++ ".type: Invalid"]) ++
        (match n.typeVersion with
         | none => []
         | some v => if 0 < v then []
             else ["❌ nodes." ++ i ++ ".typeVersion: Number must be greater than 0"]) ++
        (match n.position with
         | none => ["❌ nodes." ++ i ++ ".position: Required"]
         | some l =>
             if l.length = 2 then []
             else ["❌ nodes." ++ i ++ ".position: Array must contain exactly 2 element(s)"]) ++
        (match n.parameters with
         | .missing => ["❌ nodes." ++ i ++ ".parameters: Required"]
         | .malformed => ["❌ nodes." ++ i ++ ".parameters: Expected object"]
         | .map _ => []))).flatten

/-! ## `validateWorkflow` -/

/-- The result object of `validateWorkflow`. -/
structure ValidationResult where
  valid      : Bool
  errors     : List String
  warnings   : List String
  fixes      : List String
  autofixed  : Bool
  normalized : Option WorkflowJ
deriving Repr, DecidableEq

/-- The missing-required-field criticals of one node at index `i`. -/
def step0NodeErrors (i : Nat) (node : NodeJ) : List String :=
  (if falsyStr node.name then
    ["❌ CRITICAL: Node at index " ++ toString i ++
     " is missing \x27name\x27 field"] else []) ++
  (if falsyStr node.type then
    ["❌ CRITICAL: Node at index " ++ toString i ++
     " is missing \x27type\x27 field"] else []) ++
  (if node.position.isNone then
    ["❌ CRITICAL: Node \"" ++ orAtIndex node.name i ++
     "\" is missing \x27position\x27 field"] else [])

/-- The STEP-0 loop body: `.error` is the immediate `return` on malformed
parameters (carrying the errors accumulated so far plus the malformed
message); `.ok` accumulates the missing-field criticals. -/
def step0Go (acc : List String) : List (Nat × NodeJ) → Except (List String) (List String)
  | [] => .ok acc
  | q :: t =>
      if q.2.parameters = .malformed then
        .error (acc ++ ["❌ CRITICAL: Node \"" ++ orAtIndex q.2.name q.1 ++
          "\" has malformed parameters"])
      else step0Go (acc ++ step0NodeErrors q.1 q.2) t

/-- STEP 0 of `validateWorkflow`: the malformed-JSON scan over the
nodes. -/
def step0Scan (ns : List NodeJ) : Except (List String) (List String) :=
  step0Go [] ns.enum

/-- STEP 3 of `validateWorkflow`: per-node structural errors. -/
def nodeStructuralErrors (n : NodeJ) : List String :=
  (if falsyStr n.name then ["Node missing name"] else []) ++
  (if falsyStr n.type then
    ["Node \"" ++ orUnnamed n.name ++ "\" missing type"] else []) ++
  (if ¬ falsyStr n.type ∧ ¬ strIncludes (n.type.getD "") "." then
    ["Node \"" ++ showOpt n.name ++ "\" has invalid type format \"" ++
     n.type.getD "" ++ "\""] else []) ++
  (match n.position with
   | none => ["Node \"" ++ showOpt n.name ++ "\" missing or invalid position array"]
   | some l =>
       if l.length ≠ 2 then
         ["Node \"" ++ showOpt n.name ++ "\" missing or invalid position array"]
       else []) ++
  (match n.parameters with
   | .map _ => []
   | _ => ["Node \"" ++ showOpt n.name ++ "\" missing parameters object"]) ++
  (if ¬ falsyStr n.name ∧ isGenericName (n.name.getD "") then
    ["Node \"" ++ n.name.getD "" ++ "\" has generic name - use descriptive names"]
   else [])

/-- `new Set(l).size`: the number of distinct elements (kernel-reducible
fold, mirroring insertion-order set construction). -/
def setSize (l : List (Option String)) : Nat :=
  (l.foldl (fun acc x => if acc.contains x then acc else acc ++ [x]) []).length

/-- The duplicate-name test `new Set(nodes.map(n => n.name)).size !==
nodes.length` (undefined names collapse to a single set element). -/
def hasDupNames (ns : List NodeJ) : Bool :=
  setSize (ns.map (·.name)) ≠ ns.length

/-- `validateWorkflow(workflowJson, autofix)`.  A non-object document is
passed as `none`.  The `try/catch` materializes as the handling of the
`Except.error` results of `applyAutoFixes`. -/
def validateWorkflow (ow : Option WorkflowJ) (autofix : Bool := true) :
    ValidationResult :=
  match ow with
  | none =>
      ⟨false, ["❌ CRITICAL: Invalid workflow format - not a valid JSON object"],
       [], [], false, none⟩
  | some w =>
      -- STEP 0: malformed-JSON detection
      match w.nodes with
      | some ns =>
          (match step0Scan ns with
           | .error errs => ⟨false, errs, [], [], false, none⟩
           | .ok errs0 =>
               if ¬ errs0.isEmpty then
                 ⟨false,
                  ["❌ WORKFLOW JSON IS MALFORMED/INCOMPLETE",
                   "The workflow contains incomplete node definitions.",
                   "This usually means the AI response was cut off or truncated.",
                   "",
                   "Specific errors:"] ++ errs0,
                  [], [], false, none⟩
               else
                 if ns.isEmpty then
                   ⟨false, ["Workflow must have at least one node"], [], [], false, none⟩
                 else
                   -- STEP 1: schema validation
                   let errors := schemaErrors w
                   -- STEP 2: duplicate names
                   let errors := errors ++
                     (if hasDupNames ns then
                       ["Workflow contains nodes with duplicate names"] else [])
                   -- STEP 3: per-node validation
                   let errors := errors ++ (ns.map nodeStructuralErrors).flatten
                   -- STEP 4: connections
                   let (errors, warnings) :=
                     match w.connections with
                     | some cs =>
                         let vc := validateConnections ns cs
                         (errors ++ vc.1, vc.2)
                     | none => (errors, [])
                   -- STEP 5: auto-fixes
                   if autofix then
                     match applyAutoFixes w with
                     | .error msg => ⟨false, [msg], [], [], false, none⟩
                     | .ok fr =>
                         let warnings := warnings ++ fr.warnings
                         let postFix :=
                           if hasDupNames (fr.workflow.nodes.getD []) then
                             ["Workflow still contains nodes with duplicate names after auto-fix"]
                           else []
                         let errors :=
                           if fr.fixed ∧ postFix.isEmpty then []
                           else errors ++ postFix
                         ⟨errors.isEmpty, errors, warnings, fr.fixes, fr.fixed,
                          if fr.fixed then some fr.workflow else some w⟩
                   else
                     ⟨errors.isEmpty, errors, warnings, [], false, some w⟩)
      | none =>
          ⟨false, ["Workflow must have nodes array"], [], [], false, none⟩

/-! ## The analyzer's depth computation (analyzer.ts lines 78-117)

`calculateWorkflowDepth` operates on the typed `Workflow` interface
(every node has string `name` and `type`).  The worklist loop is modelled
with explicit fuel: `none` means the `while` loop has not terminated
within the given number of iterations; a result that is `none` for
**every** fuel is a non-terminating run.  Depth values are exact integers
(`Nat`); in JS they are IEEE doubles, which only stop growing when
`n + 1 = n` at magnitude 2^53 — the exact-integer model exposes the
unbounded relaxation directly. -/

/-- A node of the analyzer's typed workflow interface. -/
structure ANode where
  name : String
  type : String
deriving Repr, DecidableEq

/-- The analyzer's typed workflow. -/
structure AWorkflow where
  nodes : List ANode
  connections : Conns
deriving Repr, DecidableEq

/-- `depths` lookup: a JS `Map` keyed by the raw (possibly undefined)
connection target. -/
def dGet (k : Option String) (l : List (Option String × Nat)) : Option Nat :=
  (l.find? (fun p => p.1 = k)).map (·.2)

/-- `Map.set`: replace in place, else append. -/
def dSet (k : Option String) (v : Nat) (l : List (Option String × Nat)) :
    List (Option String × Nat) :=
  if l.any (fun p => p.1 = k) then
    l.map (fun p => if p.1 = k then (k, v) else p)
  else l ++ [(k, v)]

/-- The state of the worklist loop. -/
structure DepthState where
  depths   : List (Option String × Nat)
  queue    : List (Option String)
  maxDepth : Nat
deriving Repr, DecidableEq

/-- One iteration of the `while (queue.length > 0)` body: shift the head,
then relax every outgoing record (all port kinds) — a target whose
best-known depth increases is rewritten and re-enqueued unless already
queued. -/
def depthIter (w : AWorkflow) (s : DepthState) : DepthState :=
  match s.queue with
  | [] => s
  | current :: rest =>
      let currentDepth := (dGet current s.depths).getD 0
      match getEntry (showOpt current) w.connections with
      | none => {s with queue := rest}
      | some pm =>
          (pmRecords pm).foldl
            (fun st c =>
              let nextDepth := currentDepth + 1
              let existingDepth := (dGet c.node st.depths).getD 0
              if nextDepth > existingDepth then
                { depths := dSet c.node nextDepth st.depths,
                  queue :=
                    if st.queue.contains c.node then st.queue
                    else st.queue ++ [c.node],
                  maxDepth := max st.maxDepth nextDepth }
              else st)
            {s with queue := rest}

/-- Run the worklist loop with the given fuel; `none` = the loop is still
running after `fuel` iterations. -/
def depthRun (w : AWorkflow) : Nat → DepthState → Option Nat
  | 0, _ => none
  | fuel + 1, s =>
      if s.queue.isEmpty then some s.maxDepth
      else depthRun w fuel (depthIter w s)

/-- `calculateWorkflowDepth(workflow)` with explicit fuel: find the
trigger, seed its depth at 0, then relax over the worklist. -/
def calculateWorkflowDepth (w : AWorkflow) (fuel : Nat) : Option Nat :=
  match w.nodes.find? (fun n =>
      strIncludes n.type "Trigger" || strIncludes n.type "trigger") with
  | none => some 0
  | some trigger =>
      depthRun w fuel ⟨[(some trigger.name, 0)], [some trigger.name], 0⟩

/-- The failing input: trigger `A` and step `B` with `A → B → A` `main`
edges. -/
def depthCycleW : AWorkflow :=
  { nodes := [⟨"A", "n8n-nodes-base.manualTrigger"⟩, ⟨"B", "n8n-nodes-base.set"⟩],
    connections :=
      [("A", [("main", [[⟨some "B", some "main", some 0⟩]])]),
       ("B", [("main", [[⟨some "A", some "main", some 0⟩]])])] }

/-- The loop state after `2k+1` iterations. -/
def dsB (k : Nat) : DepthState :=
  ⟨[(some "A", 2 * k), (some "B", 2 * k + 1)], [some "B"], 2 * k + 1⟩

/-- The loop state after `2k+2` iterations. -/
def dsA (k : Nat) : DepthState :=
  ⟨[(some "A", 2 * k + 2), (some "B", 2 * k + 1)], [some "A"], 2 * k + 2⟩

/-- The initial loop state. -/
def dsInit : DepthState := ⟨[(some "A", 0)], [some "A"], 0⟩

/-! # Concrete example workflows used by the counterexamples and witnesses -/

/-- A well-formed node with the given name, type, position and
parameters. -/
def sampleNode (name type : String) (pos : List Int) (params : List (String × PVal)) :
    NodeJ :=
  { id := none, name := some name, type := some type, typeVersion := none,
    position := some pos, parameters := .map params, credentials := none }

/-- Total number of connection records of an adjacency object. -/
def edgeCountC (cs : Conns) : Nat :=
  (cs.map (fun e => (pmRecords e.2).length)).sum

/-- Scenario B of the spec: a single step named `Node1`, no edges, no
agent-kind step. -/
def scenarioB : WorkflowJ :=
  { id := none, name := none,
    nodes := some [sampleNode "Node1" "n8n-nodes-base.set" [0, 0] []],
    connections := some [], active := none }

/-- A workflow where the pipeline renames `Node1` while an edge
references it. -/
def renameDropW : WorkflowJ :=
  { id := none, name := some "W",
    nodes := some [sampleNode "Node1" "n8n-nodes-base.set" [0, 0] [],
                   sampleNode "Code Run" "n8n-nodes-base.code" [200, 0] []],
    connections := some
      [("Node1", [("main", [[⟨some "Code Run", some "main", some 0⟩]])])],
    active := none }

/-- An adjacency object referencing `Node1` both as an adjacency key and
as a record target — the shape a rename of `Node1` must rewrite on both
sides. -/
def renameCs : Conns :=
  [("Node1", [("main", [[⟨some "B", some "main", some 0⟩]])]),
   ("B", [("main", [[⟨some "Node1", some "main", some 0⟩]])])]

/-- A workflow with an `ai_tool` edge from a LangChain tool to a plain
(non-agent) step. -/
def toolTargetW : WorkflowJ :=
  { id := none, name := some "W",
    nodes := some [sampleNode "Calc" "@n8n/n8n-nodes-langchain.toolCalculator" [0, 0] [],
                   sampleNode "Store" "n8n-nodes-base.set" [200, 0] []],
    connections := some
      [("Calc", [("ai_tool", [[⟨some "Store", some "ai_tool", some 0⟩]])])],
    active := none }

/-- A workflow whose tool has two `ai_tool` records to the same target
differing only in `index` — the first pipeline run normalizes both
indexes to 0, the second run then removes the resulting duplicate. -/
def reindexDupW : WorkflowJ :=
  { id := none, name := some "W",
    nodes := some [sampleNode "Calc" "@n8n/n8n-nodes-langchain.toolCalculator" [0, 0] [],
                   sampleNode "Store" "n8n-nodes-base.set" [200, 0] []],
    connections := some
      [("Calc", [("ai_tool",
         [[⟨some "Store", some "ai_tool", some 0⟩,
           ⟨some "Store", some "ai_tool", some 1⟩]])])],
    active := none }

/-- A non-conditional step with two outbound `main` records at output
slot 1 (and a single record at slot 0). -/
def slot1FanW : WorkflowJ :=
  { id := none, name := some "W",
    nodes := some [sampleNode "S" "n8n-nodes-base.set" [0, 0] [],
                   sampleNode "T1" "n8n-nodes-base.code" [200, 0] [],
                   sampleNode "T2" "n8n-nodes-base.code" [200, 200] []],
    connections := some
      [("S", [("main",
         [[⟨some "T1", some "main", some 0⟩],
          [⟨some "T1", some "main", some 0⟩, ⟨some "T2", some "main", some 0⟩]])])],
    active := none }

/-- A chain step name for scenario D. -/
def chainName (i : Nat) : String := "Step " ++ toString i

/-- Scenario D of the spec: ten sequential action steps where step 3 has
two outbound `main` records at its first output slot (to step 4 and to
step 7). -/
def scenarioD : WorkflowJ :=
  { id := none, name := some "W",
    nodes := some ((List.range 10).map (fun i =>
      sampleNode (chainName (i + 1)) "n8n-nodes-base.code" [(i : Int) * 200, 0] [])),
    connections := some
      [(chainName 1, [("main", [[⟨some (chainName 2), some "main", some 0⟩]])]),
       (chainName 2, [("main", [[⟨some (chainName 3), some "main", some 0⟩]])]),
       (chainName 3, [("main", [[⟨some (chainName 4), some "main", some 0⟩,
                                 ⟨some (chainName 7), some "main", some 0⟩]])]),
       (chainName 4, [("main", [[⟨some (chainName 5), some "main", some 0⟩]])]),
       (chainName 5, [("main", [[⟨some (chainName 6), some "main", some 0⟩]])]),
       (chainName 6, [("main", [[⟨some (chainName 7), some "main", some 0⟩]])]),
       (chainName 7, [("main", [[⟨some (chainName 8), some "main", some 0⟩]])]),
       (chainName 8, [("main", [[⟨some (chainName 9), some "main", some 0⟩]])]),
       (chainName 9, [("main", [[⟨some (chainName 10), some "main", some 0⟩]])])],
    active := none }

/-- A language-model node carrying a deny-listed model literal under a
key that is neither `model` nor `modelName`, next to a matching `model`
key. -/
def modelLiteralW : WorkflowJ :=
  { id := none, name := some "W",
    nodes := some [sampleNode "LLM" "@n8n/n8n-nodes-langchain.lmChatOpenAi" [0, 0]
      [("customModel", .str "gpt-4"), ("model", .str "gpt-4o"), ("temperature", .num 1)]],
    connections := some [], active := none }

/-- Nodes for the duplicate-edge warning example. -/
def dupIdxNodes : List NodeJ :=
  [sampleNode "A" "n8n-nodes-base.set" [0, 0] [],
   sampleNode "B" "n8n-nodes-base.code" [200, 0] []]

/-- Two `main` records from `A` to `B` that differ in `index` (slots 0
and 1). -/
def dupIdxConns : Conns :=
  [("A", [("main",
     [[⟨some "B", some "main", some 0⟩], [⟨some "B", some "main", some 1⟩]])])]

/-- The contribution of one source entry to the `k`-counter. -/
def entryCnt (nodes : List NodeJ) (k : String) (e : String × PortMap) :
    Nat :=
  if hasNameB nodes e.1 then
    (pmRecords e.2).countP (recMatches nodes e.1 k)
  else 0

/-- The parameter map of a node (empty for the non-object cases). -/
def paramsOf (n : NodeJ) : List (String × PVal) :=
  match n.parameters with
  | .map l => l
  | _ => []

/-- A record's index is absent or 0. -/
def connIdxOk (c : Conn) : Bool :=
  match c.index with
  | none => true
  | some i => i == 0

/-- Every `ai_tool` record of the adjacency object has an absent-or-zero
index. -/
def aiToolIdx0 (cs : Conns) : Bool :=
  cs.all (fun e =>
    match getEntry "ai_tool" e.2 with
    | some outs => outs.all (fun arr => arr.all connIdxOk)
    | none => true)

/-- The workflow-level invariant. -/
def wfIdx0 (w : WorkflowJ) : Bool := aiToolIdx0 (w.connections.getD [])

/-- The concrete result of the repair pipeline on `toolTargetW` (the two
nodes merely receive generated ids). -/
def toolTargetFixed : FixResult :=
  { fixed := true,
    workflow :=
      { id := none, name := some "W",
        nodes := some
          [{ id := some "uuid-0", name := some "Calc",
             type := some "@n8n/n8n-nodes-langchain.toolCalculator",
             typeVersion := none, position := some [0, 0],
             parameters := ParamsF.map [], credentials := none },
           { id := some "uuid-1", name := some "Store",
             type := some "n8n-nodes-base.set",
             typeVersion := none, position := some [200, 0],
             parameters := ParamsF.map [], credentials := none }],
        connections := some
          [("Calc", [("ai_tool", [[⟨some "Store", some "ai_tool", some 0⟩]])])],
        active := none },
    fixes := ["✅ Added ID to node \"Calc\"", "✅ Added ID to node \"Store\""],
    warnings := [] }

/-- The pipeline result on Scenario B (checked by `rfl`/`decide` in the
witness). -/
def scenarioBFix : FixResult :=
  { fixed := true,
    workflow :=
      { id := none, name := some "My Workflow",
        nodes := some [{ id := some "uuid-0", name := some "Set Data",
                         type := some "n8n-nodes-base.set", typeVersion := none,
                         position := some [0, 0], parameters := .map [],
                         credentials := none }],
        connections := some [], active := none },
    fixes := ["✅ Added missing workflow name",
              "✅ Renamed generic \"Node1\" → \"Set Data\"",
              "✅ Added ID to node \"Set Data\""],
    warnings := [] }

/-! # Association-list lemmas -/

theorem getEntry_cons_self (e : String × α) (t : List (String × α)) (h : e.1 = k) :
    getEntry k (e :: t) = some e.2 := by
  unfold getEntry
  rw [List.find?_cons_of_pos _ (by simpa using h)]
  rfl

theorem getEntry_cons_kv (k : String) (v : α) (t : List (String × α)) :
    getEntry k ((k, v) :: t) = some v :=
  getEntry_cons_self (k, v) t rfl

theorem getEntry_cons_ne (e : String × α) (t : List (String × α)) (h : ¬ e.1 = k) :
    getEntry k (e :: t) = getEntry k t := by
  unfold getEntry
  rw [List.find?_cons_of_neg _ (by simpa using h)]

theorem getEntry_nil (k : String) : getEntry (α := α) k [] = none := rfl

theorem getEntry_append (k : String) (l₁ l₂ : List (String × α)) :
    getEntry k (l₁ ++ l₂) =
      match getEntry k l₁ with
      | some v => some v
      | none => getEntry k l₂ := by
  induction l₁ with
  | nil => simp [getEntry_nil]
  | cons e t ih =>
      by_cases he : e.1 = k
      · rw [List.cons_append, getEntry_cons_self e _ he, getEntry_cons_self e t he]
      · rw [List.cons_append, getEntry_cons_ne e _ he, getEntry_cons_ne e t he, ih]

theorem getEntry_setEntry_self (k : String) (v : α) (l : List (String × α)) :
    getEntry k (setEntry k v l) = some v := by
  unfold setEntry
  split
  · rename_i hany
    induction l with
    | nil => simp at hany
    | cons e t ih =>
        by_cases he : e.1 = k
        · rw [List.map_cons, if_pos he, getEntry_cons_kv]
        · rw [List.map_cons, if_neg he, getEntry_cons_ne _ _ he]
          simp only [List.any_cons, Bool.or_eq_true, decide_eq_true_eq] at hany
          exact ih (by simpa [he] using hany)
  · rw [getEntry_append]
    rename_i hany
    have hnone : getEntry k l = none := by
      induction l with
      | nil => rfl
      | cons e t ih =>
          simp only [List.any_cons, Bool.or_eq_true, decide_eq_true_eq, not_or] at hany
          rw [getEntry_cons_ne _ _ hany.1]
          exact ih (by simpa using hany.2)
    rw [hnone]
    simpa using getEntry_cons_kv k v []

theorem getEntry_setEntry_ne (k k' : String) (v : α) (l : List (String × α))
    (h : k' ≠ k) : getEntry k' (setEntry k v l) = getEntry k' l := by
  have hk : ¬ (k = k') := fun hh => h hh.symm
  unfold setEntry
  split
  · rename_i hany
    clear hany
    induction l with
    | nil => rfl
    | cons e t ih =>
        by_cases he : e.1 = k
        · have he' : ¬ e.1 = k' := by rw [he]; exact hk
          rw [List.map_cons, if_pos he, getEntry_cons_ne _ _ hk,
            getEntry_cons_ne _ _ he', ih]
        · by_cases he' : e.1 = k'
          · rw [List.map_cons, if_neg he, getEntry_cons_self _ _ he',
              getEntry_cons_self _ _ he']
          · rw [List.map_cons, if_neg he, getEntry_cons_ne _ _ he',
              getEntry_cons_ne _ _ he', ih]
  · rw [getEntry_append]
    cases hl : getEntry k' l with
    | some v' => rfl
    | none => rw [getEntry_cons_ne _ _ hk, getEntry_nil]

theorem getEntry_mem (k : String) (v : α) (l : List (String × α))
    (h : getEntry k l = some v) : (k, v) ∈ l := by
  unfold getEntry at h
  cases hf : l.find? (fun p => p.1 = k) with
  | none => rw [hf] at h; cases h
  | some p =>
      rw [hf] at h
      have hm := List.mem_of_find?_eq_some hf
      have hk := List.find?_some hf
      simp only [decide_eq_true_eq] at hk
      cases h
      cases p
      cases hk
      exact hm

theorem getEntry_delEntry_self (k : String) (l : List (String × α)) :
    getEntry k (delEntry k l) = none := by
  unfold delEntry
  induction l with
  | nil => rfl
  | cons e t ih =>
      by_cases he : e.1 = k
      · simpa [List.filter, he] using ih
      · simp only [List.filter, decide_eq_true (show ¬ e.1 = k from he)]
        rw [getEntry_cons_ne _ _ he]
        exact ih

theorem getEntry_delEntry_ne (k k' : String) (l : List (String × α))
    (h : k' ≠ k) : getEntry k' (delEntry k l) = getEntry k' l := by
  unfold delEntry
  induction l with
  | nil => rfl
  | cons e t ih =>
      by_cases he : e.1 = k
      · have he' : ¬ e.1 = k' := by rw [he]; exact fun hh => h hh.symm
        simp only [List.filter, decide_eq_false (show ¬ ¬ e.1 = k from not_not_intro he)]
        rw [getEntry_cons_ne _ _ he']
        exact ih
      · simp only [List.filter, decide_eq_true (show ¬ e.1 = k from he)]
        by_cases he' : e.1 = k'
        · rw [getEntry_cons_self _ _ he', getEntry_cons_self _ _ he']
        · rw [getEntry_cons_ne _ _ he', getEntry_cons_ne _ _ he', ih]

theorem mem_setEntry (k : String) (v : α) (l : List (String × α)) (e : String × α)
    (h : e ∈ setEntry k v l) : e ∈ l ∨ e = (k, v) := by
  unfold setEntry at h
  split at h
  · rcases List.mem_map.mp h with ⟨x, hx, hfx⟩
    by_cases hxk : x.1 = k
    · right
      rw [if_pos hxk] at hfx
      exact hfx.symm
    · left
      rw [if_neg hxk] at hfx
      exact hfx ▸ hx
  · rcases List.mem_append.mp h with h | h
    · exact Or.inl h
    · exact Or.inr (List.mem_singleton.mp h)

theorem mem_delEntry (k : String) (l : List (String × α)) (e : String × α)
    (h : e ∈ delEntry k l) : e ∈ l :=
  List.mem_of_mem_filter h

/-! # Claim C3: termination of the depth computation

The spec asserts that `calculateWorkflowDepth` terminates on every finite
graph, even cyclic ones, "because relaxation stops once no further
increase is possible".  For *longest-path* relaxation this is wrong: on a
cycle reachable from the trigger, every pass around the cycle increases
every depth, so the worklist never drains.  The two-node cycle below is a
concrete failing input: the loop state cycles through the `dsA`/`dsB`
families with ever-growing depths, and `depthRun` returns `none` for
every fuel. -/

theorem depthIter_dsInit : depthIter depthCycleW dsInit = dsB 0 := by decide

theorem depthIter_dsB (k : Nat) : depthIter depthCycleW (dsB k) = dsA k := by
  have hAA : (decide ((some "A" : Option String) = some "A")) = true := rfl
  have hBA : (decide ((some "B" : Option String) = some "A")) = false := rfl
  have hAB : (decide ((some "A" : Option String) = some "B")) = false := rfl
  have hBB : (decide ((some "B" : Option String) = some "B")) = true := rfl
  have hsAB : (decide ("A" = "B")) = false := rfl
  have hsBB : (decide ("B" = "B")) = true := rfl
  have hsAA : (decide ("A" = "A")) = true := rfl
  have hsBA : (decide ("B" = "A")) = false := rfl
  simp only [depthIter, dsB, dsA, depthCycleW, dGet, dSet, getEntry, showOpt,
    pmRecords, List.find?, List.map, List.flatten, List.foldl, List.append_nil,
    List.contains, List.elem, List.any_cons, List.any_nil,
    hAA, hBA, hAB, hBB, hsAB, hsBB, hsAA, hsBA]
  norm_num
  rw [if_pos (show 2 * k < 2 * k + 1 + 1 by omega)]
  norm_num
  decide

theorem depthIter_dsA (k : Nat) : depthIter depthCycleW (dsA k) = dsB (k + 1) := by
  have hAA : (decide ((some "A" : Option String) = some "A")) = true := rfl
  have hBA : (decide ((some "B" : Option String) = some "A")) = false := rfl
  have hAB : (decide ((some "A" : Option String) = some "B")) = false := rfl
  have hBB : (decide ((some "B" : Option String) = some "B")) = true := rfl
  have hsAB : (decide ("A" = "B")) = false := rfl
  have hsBB : (decide ("B" = "B")) = true := rfl
  have hsAA : (decide ("A" = "A")) = true := rfl
  have hsBA : (decide ("B" = "A")) = false := rfl
  simp only [depthIter, dsB, dsA, depthCycleW, dGet, dSet, getEntry, showOpt,
    pmRecords, List.find?, List.map, List.flatten, List.foldl, List.append_nil,
    List.contains, List.elem, List.any_cons, List.any_nil,
    hAA, hBA, hAB, hBB, hsAB, hsBB, hsAA, hsBA]
  norm_num
  rw [List.find?_cons_of_neg _ (by simp), List.find?_cons_of_pos _ (by simp)]
  norm_num
  constructor
  · rw [if_neg (show ¬ ("A" = "B") by decide)]
    simp only [Prod.mk.injEq, Option.some.injEq]
    exact ⟨trivial, by omega⟩
  · omega

/-- Every state of the `dsInit`/`dsA`/`dsB` family leaves the worklist
loop running forever: `depthRun` yields `none` at every fuel. -/
theorem depthRun_family_none : ∀ (fuel : Nat) (s : DepthState),
    (s = dsInit ∨ (∃ k, s = dsA k) ∨ (∃ k, s = dsB k)) →
    depthRun depthCycleW fuel s = none := by
  intro fuel
  induction fuel with
  | zero => intro s _; rfl
  | succ f ih =>
      intro s hs
      have hq : s.queue.isEmpty = false := by
        rcases hs with h | ⟨k, h⟩ | ⟨k, h⟩ <;> subst h <;> rfl
      simp only [depthRun, hq, Bool.false_eq_true, if_false]
      apply ih
      rcases hs with h | ⟨k, h⟩ | ⟨k, h⟩
      · subst h; rw [depthIter_dsInit]; exact Or.inr (Or.inr ⟨0, rfl⟩)
      · subst h; rw [depthIter_dsA]; exact Or.inr (Or.inr ⟨k + 1, rfl⟩)
      · subst h; rw [depthIter_dsB]; exact Or.inr (Or.inl ⟨k, rfl⟩)

/-- **C3** — `code_bug`.  The claim (and the spec) say the depth
computation terminates on every finite input graph, cycles included,
because "relaxation stops once no further increase is possible".  On the
two-node cycle `depthCycleW`, reachable from the trigger, each step's
best-known depth increases forever and the worklist never empties: the
loop does not terminate for any number of iterations (equivalently: in
JS, depths grow until float increments saturate at 2^53 — an effective
hang).  The monotonic-relaxation argument is valid for shortest paths,
not for the longest-path relaxation the code performs. -/
theorem C3_depth_nonterminating_on_cycle :
    ∀ fuel : Nat, calculateWorkflowDepth depthCycleW fuel = none := by
  intro fuel
  have htrig : depthCycleW.nodes.find? (fun n =>
      strIncludes n.type "Trigger" || strIncludes n.type "trigger") =
      some ⟨"A", "n8n-nodes-base.manualTrigger"⟩ := by decide
  unfold calculateWorkflowDepth
  rw [htrig]
  exact depthRun_family_none fuel dsInit (Or.inl rfl)

/-! # Claim C1 — counterexample

Scenario B: validated with autofix, the report is `autofixed: true` but
**`valid: true` with an empty error list**, even though re-validating the
repaired workflow shows the hanging-step error still present.  The code
clears *all* accumulated errors whenever the pipeline made at least one
fix and the repaired nodes have unique names (`errors.length = 0` at
validator.ts 1372-1376); it re-checks only duplicate names, never the
structural errors. -/

/-- **C1 counterexample**: on Scenario B the result is `autofixed: true`
and `valid: true` with no errors, while the repaired workflow still fails
a plain re-validation — contradicting the claimed
`autofixed: true ∧ valid: false` with a hanging-step error. -/
theorem C1_counterexample_scenarioB_reports_valid :
    (validateWorkflow (some scenarioB) true).autofixed = true ∧
    (validateWorkflow (some scenarioB) true).valid = true ∧
    (validateWorkflow (some scenarioB) true).errors = [] ∧
    (validateWorkflow (validateWorkflow (some scenarioB) true).normalized false).errors
      ≠ [] := by
  decide

/-! # Claim C2 — counterexample

The pipeline's inline rename (applyAutoFixes, validator.ts 1586-1609)
does not touch the adjacency map.  On `renameDropW`, node `Node1` (one
outbound edge) is renamed to `Set Data`; the connection cleanup then
deletes the whole entry still keyed `Node1` as a "non-existent source".
The single edge disappears: it is not rewritten, and the total edge
count drops from 1 to 0. -/

/-- **C2 counterexample**: a repaired workflow in which a step was
renamed but the edge that referenced the old name was deleted rather
than rewritten (edge count 1 → 0). -/
theorem C2_counterexample_rename_drops_edges :
    edgeCountC (renameDropW.connections.getD []) = 1 ∧
    (applyAutoFixes renameDropW).map (fun r =>
        ((r.workflow.nodes.getD []).map (·.name),
         r.workflow.connections,
         r.fixes.contains "✅ Renamed generic \"Node1\" → \"Set Data\"",
         r.fixes.contains "✅ Removed connections from non-existent source \"Node1\"")) =
      .ok ([some "Set Data", some "Code Run"], some [], true, true) := by
  decide

/-! # Claim C2 — amended theorem

The pipeline-wide claim is false (see the counterexample: the inline
duplicate-name rename of `applyAutoFixes` rewrites **no** edges, and the
later cleanup then deletes the edges still referencing the old name).
What does hold is the rename-consistency of the rewrite that
`ensureDescriptiveNames` (FIX-6) applies for each rename — the composite
`renameTargets old new (moveConnKey old new cs)` — provided the new name
is fresh (not an adjacency key, not a record target) and the adjacency
keys are distinct (guaranteed for a JS object): the edge count is
unchanged, records targeting the old name all target the new name (and
only those), no reference to the old name survives on either side, and
the old source entry reappears under the new key with its targets
rewritten. -/

/-- `pmRecords` commutes with the target rename. -/
theorem pmRecords_pmRename (old new : String) (pm : PortMap) :
    pmRecords (pmRename old new pm) =
      (pmRecords pm).map (fun c =>
        if c.node = some old then {c with node := some new} else c) := by
  unfold pmRecords pmRename
  induction pm with
  | nil => rfl
  | cons pe t ih =>
      simp only [List.map_cons, List.flatten_cons, List.map_append, ih]
      congr 1
      induction pe.2 with
      | nil => rfl
      | cons arr rest ih2 =>
          simp only [List.map_cons, List.flatten_cons, List.map_append, ih2]

/-- After the rename, no record targets the old name (record level). -/
theorem countP_rename_old (old new : String) (hne : old ≠ new)
    (l : List Conn) :
    (l.map (fun c =>
        if c.node = some old then {c with node := some new} else c)).countP
      (fun c => c.node == some old) = 0 := by
  induction l with
  | nil => rfl
  | cons c t ih =>
      by_cases hc : c.node = some old
      · simp [List.countP_cons, hc, ih, Ne.symm hne]
      · simp [List.countP_cons, hc, ih]

/-- After the rename, the records targeting the new name are exactly the
old-targeting ones plus the previously new-targeting ones. -/
theorem countP_rename_new (old new : String) (hne : old ≠ new)
    (l : List Conn) :
    (l.map (fun c =>
        if c.node = some old then {c with node := some new} else c)).countP
      (fun c => c.node == some new) =
      l.countP (fun c => c.node == some old) +
        l.countP (fun c => c.node == some new) := by
  induction l with
  | nil => rfl
  | cons c t ih =>
      by_cases hc : c.node = some old
      · simp only [List.map_cons, List.countP_cons, if_pos hc, ih]
        simp [hc, hne, Ne.symm hne]
        omega
      · simp only [List.map_cons, List.countP_cons, if_neg hc, ih]
        simp [hc]
        omega

theorem cntT_pmRename_new (old new : String) (hne : old ≠ new)
    (pm : PortMap) :
    cntT new (pmRename old new pm) = cntT old pm + cntT new pm := by
  unfold cntT
  rw [pmRecords_pmRename, countP_rename_new old new hne]

theorem cntT_pmRename_old (old new : String) (hne : old ≠ new)
    (pm : PortMap) : cntT old (pmRename old new pm) = 0 := by
  unfold cntT
  rw [pmRecords_pmRename]
  exact countP_rename_old old new hne _

/-- `renameTargets` preserves the edge count. -/
theorem edgeCountC_renameTargets (old new : String) (cs : Conns) :
    edgeCountC (renameTargets old new cs) = edgeCountC cs := by
  unfold edgeCountC renameTargets
  induction cs with
  | nil => rfl
  | cons e t ih =>
      simp only [List.map_cons, List.sum_cons, ih]
      congr 1
      rw [pmRecords_pmRename, List.length_map]

theorem tgtCount_renameTargets_new (old new : String) (hne : old ≠ new)
    (cs : Conns) :
    tgtCount new (renameTargets old new cs) =
      tgtCount old cs + tgtCount new cs := by
  unfold tgtCount renameTargets
  induction cs with
  | nil => rfl
  | cons e t ih =>
      simp only [List.map_cons, List.sum_cons, ih,
        cntT_pmRename_new old new hne]
      omega

theorem tgtCount_renameTargets_old (old new : String) (hne : old ≠ new)
    (cs : Conns) :
    tgtCount old (renameTargets old new cs) = 0 := by
  unfold tgtCount renameTargets
  induction cs with
  | nil => rfl
  | cons e t ih =>
      simp only [List.map_cons, List.sum_cons, ih,
        cntT_pmRename_old old new hne]

/-- A key that resolves to nothing can be deleted without effect. -/
theorem delEntry_of_getEntry_none (k : String) (l : List (String × α))
    (h : getEntry k l = none) : delEntry k l = l := by
  unfold delEntry
  induction l with
  | nil => rfl
  | cons e t ih =>
      by_cases he : e.1 = k
      · rw [getEntry_cons_self _ _ he] at h; cases h
      · rw [getEntry_cons_ne _ _ he] at h
        rw [List.filter_cons, if_pos (by simp [he]), ih h]

/-- A key not among the entry keys resolves to nothing. -/
theorem getEntry_none_of_not_mem (k : String) (l : List (String × α))
    (h : k ∉ l.map Prod.fst) : getEntry k l = none := by
  induction l with
  | nil => rfl
  | cons e t ih =>
      rw [List.map_cons, List.mem_cons] at h
      push_neg at h
      rw [getEntry_cons_ne _ _ (fun hh => h.1 hh.symm)]
      exact ih h.2

/-- Assigning a fresh key appends the entry. -/
theorem setEntry_of_getEntry_none (k : String) (v : α)
    (l : List (String × α)) (h : getEntry k l = none) :
    setEntry k v l = l ++ [(k, v)] := by
  have hfind : l.find? (fun p => p.1 = k) = none := by
    unfold getEntry at h
    cases hf : l.find? (fun p => p.1 = k) with
    | none => rfl
    | some p => rw [hf] at h; cases h
  rw [List.find?_eq_none] at hfind
  unfold setEntry
  rw [if_neg]
  intro hany
  obtain ⟨p, hp, hpk⟩ := List.any_eq_true.mp hany
  exact hfind p hp hpk

/-- Deleting the (unique) entry of a resolving key removes exactly its
summand from any entry-wise sum. -/
theorem sumf_delEntry (f : PortMap → Nat) (k : String) (cs : Conns)
    (pm : PortMap) (hnodup : (cs.map Prod.fst).Nodup)
    (hg : getEntry k cs = some pm) :
    ((delEntry k cs).map (fun e => f e.2)).sum + f pm =
      (cs.map (fun e => f e.2)).sum := by
  induction cs with
  | nil => cases hg
  | cons e t ih =>
      rw [List.map_cons, List.nodup_cons] at hnodup
      by_cases he : e.1 = k
      · rw [getEntry_cons_self _ _ he] at hg
        have hpm : pm = e.2 := by cases hg; rfl
        have hnone : getEntry k t = none :=
          getEntry_none_of_not_mem k t (he ▸ hnodup.1)
        unfold delEntry
        rw [List.filter_cons, if_neg (by simp [he])]
        have hdel : delEntry k t = t := delEntry_of_getEntry_none k t hnone
        unfold delEntry at hdel
        rw [hdel, hpm, List.map_cons, List.sum_cons]
        omega
      · rw [getEntry_cons_ne _ _ he] at hg
        have := ih hnodup.2 hg
        unfold delEntry
        rw [List.filter_cons, if_pos (by simp [he])]
        unfold delEntry at this
        rw [List.map_cons, List.sum_cons, List.map_cons, List.sum_cons]
        omega

/-- `moveConnKey` to a fresh key permutes the entries, so any entry-wise
sum over the port maps is unchanged. -/
theorem sumf_moveConnKey (f : PortMap → Nat) (old new : String)
    (hne : old ≠ new) (cs : Conns)
    (hnodup : (cs.map Prod.fst).Nodup) (hkey : getEntry new cs = none) :
    ((moveConnKey old new cs).map (fun e => f e.2)).sum =
      (cs.map (fun e => f e.2)).sum := by
  cases hg : getEntry old cs with
  | none =>
      unfold moveConnKey
      rw [hg]
  | some pm =>
      have hmck : moveConnKey old new cs =
          delEntry old (setEntry new pm cs) := by
        unfold moveConnKey
        rw [hg]
      rw [hmck, setEntry_of_getEntry_none new pm cs hkey]
      unfold delEntry
      rw [List.filter_append]
      have hkeep : (([((new : String), pm)]).filter
          (fun p => ¬ p.1 = old)) = [(new, pm)] := by
        simp [Ne.symm hne]
      rw [hkeep, List.map_append, List.sum_append]
      have hdel := sumf_delEntry f old cs pm hnodup hg
      unfold delEntry at hdel
      simp only [List.map_cons, List.map_nil, List.sum_cons, List.sum_nil]
      omega

theorem edgeCountC_moveConnKey (old new : String) (hne : old ≠ new)
    (cs : Conns) (hnodup : (cs.map Prod.fst).Nodup)
    (hkey : getEntry new cs = none) :
    edgeCountC (moveConnKey old new cs) = edgeCountC cs := by
  unfold edgeCountC
  exact sumf_moveConnKey (fun pm => (pmRecords pm).length) old new hne cs
    hnodup hkey

theorem tgtCount_moveConnKey (t old new : String) (hne : old ≠ new)
    (cs : Conns) (hnodup : (cs.map Prod.fst).Nodup)
    (hkey : getEntry new cs = none) :
    tgtCount t (moveConnKey old new cs) = tgtCount t cs := by
  unfold tgtCount
  exact sumf_moveConnKey (cntT t) old new hne cs hnodup hkey

/-- `getEntry` across `renameTargets`: same keys, renamed port maps. -/
theorem getEntry_renameTargets (old new k : String) (cs : Conns) :
    getEntry k (renameTargets old new cs) =
      (getEntry k cs).map (pmRename old new) := by
  unfold renameTargets
  induction cs with
  | nil => rfl
  | cons e t ih =>
      by_cases he : e.1 = k
      · rw [List.map_cons,
          getEntry_cons_self ((e.1, pmRename old new e.2)) _ he,
          getEntry_cons_self e _ he]
        rfl
      · rw [List.map_cons,
          getEntry_cons_ne ((e.1, pmRename old new e.2)) _ he,
          getEntry_cons_ne e _ he, ih]

/-- After `moveConnKey` the old key resolves to nothing. -/
theorem getEntry_moveConnKey_old (old new : String) (cs : Conns) :
    getEntry old (moveConnKey old new cs) = none := by
  cases hg : getEntry old cs with
  | none =>
      unfold moveConnKey
      rw [hg]
      exact hg
  | some pm =>
      have hmck : moveConnKey old new cs =
          delEntry old (setEntry new pm cs) := by
        unfold moveConnKey
        rw [hg]
      rw [hmck]
      exact getEntry_delEntry_self old _

/-- After `moveConnKey` the fresh new key resolves to what the old key
resolved to. -/
theorem getEntry_moveConnKey_new (old new : String) (hne : old ≠ new)
    (cs : Conns) (hkey : getEntry new cs = none) :
    getEntry new (moveConnKey old new cs) = getEntry old cs := by
  cases hg : getEntry old cs with
  | none =>
      unfold moveConnKey
      rw [hg]
      exact hkey
  | some pm =>
      have hmck : moveConnKey old new cs =
          delEntry old (setEntry new pm cs) := by
        unfold moveConnKey
        rw [hg]
      rw [hmck, getEntry_delEntry_ne old new _ (Ne.symm hne),
        getEntry_setEntry_self]

/-- **C2 amended**: the rewrite `ensureDescriptiveNames` applies for a
rename `old → new` — `renameTargets old new ∘ moveConnKey old new` — is
transactional over the adjacency structure whenever the new name is
fresh (neither an adjacency key nor a record target) and the adjacency
keys are distinct: the total edge count is unchanged; the records now
targeting `new` are exactly the records that targeted `old`; no record
targets `old` any more; the key `old` is gone; and the key `new` holds
the old entry with its targets rewritten.  (Pipeline-wide the claim
fails: the inline duplicate-name rename rewrites no edges — see the
counterexample.) -/
theorem C2_amended_rename_rewrites_both_sides (cs : Conns)
    (old new : String) (hne : old ≠ new)
    (hnodup : (cs.map Prod.fst).Nodup)
    (hkey : getEntry new cs = none) (htgt : tgtCount new cs = 0) :
    edgeCountC (renameTargets old new (moveConnKey old new cs)) =
        edgeCountC cs ∧
      tgtCount new (renameTargets old new (moveConnKey old new cs)) =
        tgtCount old cs ∧
      tgtCount old (renameTargets old new (moveConnKey old new cs)) = 0 ∧
      getEntry old (renameTargets old new (moveConnKey old new cs)) =
        none ∧
      getEntry new (renameTargets old new (moveConnKey old new cs)) =
        (getEntry old cs).map (pmRename old new) := by
  refine ⟨?_, ?_, ?_, ?_, ?_⟩
  · rw [edgeCountC_renameTargets,
      edgeCountC_moveConnKey old new hne cs hnodup hkey]
  · rw [tgtCount_renameTargets_new old new hne,
      tgtCount_moveConnKey old old new hne cs hnodup hkey,
      tgtCount_moveConnKey new old new hne cs hnodup hkey, htgt,
      Nat.add_zero]
  · exact tgtCount_renameTargets_old old new hne _
  · rw [getEntry_renameTargets, getEntry_moveConnKey_old]
    rfl
  · rw [getEntry_renameTargets,
      getEntry_moveConnKey_new old new hne cs hkey]

/-- Witness for the C2 amended theorem on `renameCs` (the rename
`Node1 → Set Data`). -/
theorem C2_amended_witness :
    (renameCs.map Prod.fst).Nodup ∧
      edgeCountC (renameTargets "Node1" "Set Data"
          (moveConnKey "Node1" "Set Data" renameCs)) =
        edgeCountC renameCs ∧
      tgtCount "Set Data" (renameTargets "Node1" "Set Data"
          (moveConnKey "Node1" "Set Data" renameCs)) =
        tgtCount "Node1" renameCs ∧
      tgtCount "Node1" (renameTargets "Node1" "Set Data"
          (moveConnKey "Node1" "Set Data" renameCs)) = 0 ∧
      getEntry "Node1" (renameTargets "Node1" "Set Data"
          (moveConnKey "Node1" "Set Data" renameCs)) = none ∧
      getEntry "Set Data" (renameTargets "Node1" "Set Data"
          (moveConnKey "Node1" "Set Data" renameCs)) =
        (getEntry "Node1" renameCs).map (pmRename "Node1" "Set Data") :=
  ⟨by decide,
   C2_amended_rename_rewrites_both_sides renameCs "Node1" "Set Data"
     (by decide) (by decide) (by decide) (by decide)⟩

/-! # Claim C4 — counterexample

Nothing in the pipeline checks the *target* of an `ai_tool` record: fix
#1 removes `ai_tool` ports of non-tool sources, fix #4 reverses
agent-sourced records, but a record from a LangChain tool to a plain
step survives every pass. -/

/-- **C4 counterexample**: after the full pipeline, `toolTargetW` still
has the `ai_tool` record `Calc → Store` although `Store`'s type
(`n8n-nodes-base.set`) is not agent-kind. -/
theorem C4_counterexample_tool_edge_to_non_agent :
    (applyAutoFixes toolTargetW).map (fun r =>
        (getEntry "Calc" (r.workflow.connections.getD []),
         (r.workflow.nodes.getD []).map (fun n => (n.name, n.type)))) =
      .ok (some [("ai_tool", [[⟨some "Store", some "ai_tool", some 0⟩]])],
           [(some "Calc", some "@n8n/n8n-nodes-langchain.toolCalculator"),
            (some "Store", some "n8n-nodes-base.set")]) ∧
    isAgentNode "n8n-nodes-base.set" = false := by
  decide

/-! # Claim C5 — counterexample

The index-normalization pass (fix #7) runs *after* the duplicate-record
cleanup of the same run.  On `reindexDupW` the first run rewrites the
index-1 record to index 0, creating an exact duplicate that only the
second run's cleanup removes — so the second run reports a fix. -/

/-- **C5 counterexample**: running the repair pipeline a second time on
the output of the first run produces a non-empty `fixes` list. -/
theorem C5_counterexample_second_run_not_empty :
    ((applyAutoFixes reindexDupW).bind (fun r => applyAutoFixes r.workflow)).map
      (fun r => r.fixes.isEmpty) = .ok false := by
  decide

/-! # Claim C6 — counterexample

`removeOverlinking` reads only `main[0]` (validator.ts 1048).  On
`slot1FanW` the non-conditional step `S` has two outbound `main` records
at output slot 1; the claim says every over-populated slot is pruned to
its first record, but the pass changes nothing. -/

/-- **C6 counterexample**: an over-populated output slot other than slot
0 is left untouched by the prune pass. -/
theorem C6_counterexample_slot1_not_pruned :
    (removeOverlinking slot1FanW).1.connections = slot1FanW.connections ∧
    (removeOverlinking slot1FanW).2.1 = 0 ∧
    ((getEntry "S" (slot1FanW.connections.getD [])).map (fun pm =>
       (getEntry "main" pm).map (fun outs => (outs.getD 1 []).length))) =
      some (some 2) ∧
    ((slot1FanW.nodes.getD []).map (·.type)).contains (some "n8n-nodes-base.if")
      = false := by
  decide

/-! # Claim C8 — counterexample

Fix #3 inspects only the literal keys `model` and `modelName`; a
deny-listed literal under any other key survives. -/

/-- **C8 counterexample**: on `modelLiteralW` the key `customModel`,
whose string value `gpt-4` matches the deny-list, is *not* deleted
(while the `model` key is). -/
theorem C8_counterexample_only_two_keys_stripped :
    matchesModelPattern "gpt-4" = true ∧
    ((removeHardcodedModelParameters modelLiteralW).1.nodes.getD []).map
        (fun n => match n.parameters with
          | .map l => (getEntry "customModel" l, getEntry "model" l)
          | _ => (none, none)) =
      [(some (.str "gpt-4"), none)] := by
  decide

/-! # Claim C9 — counterexample

The duplicate key is `` `${source}->${target}` `` (validator.ts 1435):
`portKind` and `index` are not part of it, so two records that differ in
`index` (or kind) still count as duplicates and produce the warning the
claim says must not be emitted. -/

/-- **C9 counterexample**: two `A → B` records differing in `index`
trigger the duplicate-connection warning (and no error). -/
theorem C9_counterexample_dup_warning_ignores_index :
    validateConnections dupIdxNodes dupIdxConns =
      ([], ["Duplicate connection detected: \"A\" is linked to \"B\" 2 times"]) ∧
    ((dupIdxConns.headD ("", [])).2.headD ("", [])).2.map (List.map (·.index)) =
      [[some 0], [some 1]] := by
  decide

/-! # Claim C9 — amended theorem

The duplicate-edge discriminator of `validateConnections` is the pair
key `source ++ "->" ++ target` **only** — port kind and index play no
part (see the counterexample above).  The amended theorem: whenever the
total multiplicity `keyOcc` of a pair key is at least 2, the rendered
duplicate warning for that key, carrying that exact count, appears in
the **warnings** (second) component of the result — never among the
errors. -/

/-- One record step moves the `k`-counter by exactly
`recMatches nodes src k c`. -/
theorem vcRecStep_count (nodes : List NodeJ) (src k : String)
    (acc2 : List String × List String × List (String × Nat)) (c : Conn)
    (m : Nat) (h : getEntry k acc2.2.2 = if m = 0 then none else some m) :
    getEntry k (vcRecStep nodes src acc2 c).2.2 =
      (if m + (if recMatches nodes src k c then 1 else 0) = 0 then none
       else some (m + (if recMatches nodes src k c then 1 else 0))) := by
  unfold vcRecStep
  cases hc : c.node with
  | none => simpa [recMatches, hc] using h
  | some t =>
      by_cases ht : hasNameB nodes t = true
      · simp only [ht, not_true_eq_false, if_false]
        by_cases hk : src ++ "->" ++ t = k
        · have hget : (getEntry k acc2.2.2).getD 0 = m := by
            rw [h]; by_cases hm : m = 0 <;> simp [hm]
          simp only [recMatches, hc, ht, Bool.true_and, hk, beq_self_eq_true,
            if_true]
          rw [hget, getEntry_setEntry_self]
          simp
        · have hne : ¬ (src ++ "->" ++ t == k) = true := by
            simpa using hk
          simp only [recMatches, hc, ht, Bool.true_and, hne, if_false,
            Nat.add_zero]
          rw [getEntry_setEntry_ne _ _ _ _ (fun hh => hk hh.symm)]
          exact h
      · have hr : recMatches nodes src k c = false := by
          simp [recMatches, hc, ht]
        simp only [ht, not_false_eq_true, if_true, hr, if_false,
          Nat.add_zero]
        exact h

/-- The per-record fold moves the `k`-counter by the number of matching
records. -/
theorem vcRecFold_count (nodes : List NodeJ) (src k : String)
    (rs : List Conn)
    (acc2 : List String × List String × List (String × Nat)) (m : Nat)
    (h : getEntry k acc2.2.2 = if m = 0 then none else some m) :
    getEntry k (rs.foldl (vcRecStep nodes src) acc2).2.2 =
      (if m + rs.countP (recMatches nodes src k) = 0 then none
       else some (m + rs.countP (recMatches nodes src k))) := by
  induction rs generalizing acc2 m with
  | nil => simpa using h
  | cons c rest ih =>
      have h2 := ih (vcRecStep nodes src acc2 c)
        (m + (if recMatches nodes src k c then 1 else 0))
        (vcRecStep_count nodes src k acc2 c m h)
      have hx : m + ((c :: rest).countP (recMatches nodes src k)) =
          m + (if recMatches nodes src k c then 1 else 0) +
            rest.countP (recMatches nodes src k) := by
        rw [List.countP_cons]; omega
      rw [List.foldl_cons, hx]
      exact h2

/-- One source-entry step moves the `k`-counter by `entryCnt`. -/
theorem vcEntryStep_count (nodes : List NodeJ) (k : String)
    (acc : List String × List String × List (String × Nat))
    (e : String × PortMap) (m : Nat)
    (h : getEntry k acc.2.2 = if m = 0 then none else some m) :
    getEntry k (vcEntryStep nodes acc e).2.2 =
      (if m + entryCnt nodes k e = 0 then none
       else some (m + entryCnt nodes k e)) := by
  unfold vcEntryStep entryCnt
  by_cases hs : hasNameB nodes e.1 = true
  · simp only [hs, not_true_eq_false, if_false, if_true]
    exact vcRecFold_count nodes e.1 k (pmRecords e.2)
      (acc.1, setAdd e.1 acc.2.1, acc.2.2) m h
  · simp only [hs, not_false_eq_true, if_true, if_false, Nat.add_zero]
    exact h

/-- The whole scan records, under key `k`, the sum of the entry
contributions (absent exactly when that sum is zero). -/
theorem vcScan_count (nodes : List NodeJ) (k : String) (cs : Conns)
    (acc : List String × List String × List (String × Nat)) (m : Nat)
    (h : getEntry k acc.2.2 = if m = 0 then none else some m) :
    getEntry k (cs.foldl (vcEntryStep nodes) acc).2.2 =
      (if m + (cs.map (entryCnt nodes k)).sum = 0 then none
       else some (m + (cs.map (entryCnt nodes k)).sum)) := by
  induction cs generalizing acc m with
  | nil => simpa using h
  | cons e rest ih =>
      have h2 := ih (vcEntryStep nodes acc e) (m + entryCnt nodes k e)
        (vcEntryStep_count nodes k acc e m h)
      have hx : m + ((e :: rest).map (entryCnt nodes k)).sum =
          m + entryCnt nodes k e +
            (rest.map (entryCnt nodes k)).sum := by
        rw [List.map_cons, List.sum_cons]; omega
      rw [List.foldl_cons, hx]
      exact h2

/-- **C9 amended**: duplicate edges are keyed on the
`source ++ "->" ++ target` pair alone — two records between the same
(existing) source and target count as duplicates even when they differ
in port kind or index — and whenever the total multiplicity of a pair
key is at least two, `validateConnections` emits the rendered duplicate
warning with that exact count in its warnings (never in its errors,
which are the separate first component). -/
theorem C9_amended_dup_pair_warning (nodes : List NodeJ)
    (connections : Conns) (k : String)
    (h2 : 2 ≤ keyOcc nodes connections k) :
    dupWarning k (keyOcc nodes connections k) ∈
      (validateConnections nodes connections).2 := by
  have hocc : keyOcc nodes connections k =
      (connections.map (entryCnt nodes k)).sum := by
    unfold keyOcc entryCnt
    rfl
  have hscan := vcScan_count nodes k connections ([], [], []) 0
    (by simp [getEntry_nil])
  rw [Nat.zero_add] at hscan
  rw [← hocc] at hscan
  have hne : ¬ keyOcc nodes connections k = 0 := by omega
  rw [if_neg hne] at hscan
  have hmem := getEntry_mem k (keyOcc nodes connections k)
    (connections.foldl (vcEntryStep nodes) ([], [], [])).2.2 hscan
  simp only [validateConnections]
  refine List.mem_map.mpr ⟨(k, keyOcc nodes connections k), ?_, rfl⟩
  refine List.mem_filter.mpr ⟨hmem, ?_⟩
  simp only [decide_eq_true_eq]
  omega

/-- Witness for the C9 amended theorem: on `dupIdxConns` (two `A → B`
records differing in index) the pair key `A->B` has multiplicity 2 and
the duplicate warning is emitted. -/
theorem C9_amended_witness :
    2 ≤ keyOcc dupIdxNodes dupIdxConns "A->B" ∧
      dupWarning "A->B" (keyOcc dupIdxNodes dupIdxConns "A->B") ∈
        (validateConnections dupIdxNodes dupIdxConns).2 :=
  ⟨by decide,
   C9_amended_dup_pair_warning dupIdxNodes dupIdxConns "A->B" (by decide)⟩

/-! # Claim C5 — amended theorem

The repair pipeline is **not** idempotent.  A second run can itself
report fixes: on `reindexDupW` the first run normalizes the two
`ai_tool` indexes to 0 (besides adding ids), and the second run's
duplicate-connection cleanup then removes the record the normalization
made identical — exactly one fix, with `fixed = true`. -/

/-- **C5 amended**: the second pipeline run on the repaired `reindexDupW`
reports `fixed: true` with exactly the duplicate-removal fix — the
second-run fix list is not empty. -/
theorem C5_amended_second_run_reports_dedup :
    ((applyAutoFixes reindexDupW).bind (fun r => applyAutoFixes r.workflow)).map
      (fun r => (r.fixed, r.fixes)) =
    .ok (true, ["✅ Removed duplicate connection from \"Calc\" to \"Store\""]) := by
  decide

/-! # Claim C6 — amended theorem

The prune pass truncates only **output slot 0**: for every source entry,
a first `main` slot holding `first :: second :: rest` on a
non-IF/Switch source becomes `[first]`, every other slot and every other
port kind is unchanged, IF/Switch sources and slots with at most one
record are untouched — and slots other than 0 are never pruned (the
counterexample).  Scenario D behaves as the claim says because step 3's
two edges sit in slot 0. -/

/-- The fold of `removeOverlinking` maps `overlinkEntry` over the
entries. -/
theorem removeOverlinking_connections (w : WorkflowJ) (cs : Conns)
    (h : w.connections = some cs) :
    (removeOverlinking w).1.connections =
      some (cs.map (fun e => (overlinkEntry (w.nodes.getD []) e).1)) := by
  unfold removeOverlinking
  rw [h]
  simp only
  have hfold : ∀ (l : Conns) (acc : Conns × Nat × List String),
      (l.foldl
        (fun (acc : Conns × Nat × List String) e =>
          let r2 := overlinkEntry (w.nodes.getD []) e
          (acc.1 ++ [r2.1], acc.2.1 + r2.2.1, acc.2.2 ++ r2.2.2)) acc).1 =
      acc.1 ++ l.map (fun e => (overlinkEntry (w.nodes.getD []) e).1) := by
    intro l
    induction l with
    | nil => intro acc; simp
    | cons e t ih =>
        intro acc
        simp only [List.foldl, List.map_cons]
        rw [ih]
        simp
  rw [hfold]
  simp

/-- IF/Switch sources are exempt. -/
theorem overlinkEntry_conditional_exempt (nodes : List NodeJ) (e : String × PortMap)
    (h : isConditionalSource nodes e.1 = true) :
    (overlinkEntry nodes e).1 = e := by
  unfold overlinkEntry
  cases hm : getEntry "main" e.2 with
  | none => rfl
  | some outs =>
      cases outs with
      | nil => rfl
      | cons slot0 rest =>
          by_cases hlen : slot0.length ≤ 1
          · simp [hlen]
          · simp [hlen, h]

/-- A first slot with at most one record is untouched. -/
theorem overlinkEntry_short_slot_unchanged (nodes : List NodeJ) (e : String × PortMap)
    (slot0 : List Conn) (outs : List (List Conn))
    (hm : getEntry "main" e.2 = some (slot0 :: outs)) (hlen : slot0.length ≤ 1) :
    (overlinkEntry nodes e).1 = e := by
  unfold overlinkEntry
  rw [hm]
  simp [hlen]

/-- A missing `main` port is untouched. -/
theorem overlinkEntry_no_main_unchanged (nodes : List NodeJ) (e : String × PortMap)
    (hm : getEntry "main" e.2 = none) :
    (overlinkEntry nodes e).1 = e := by
  unfold overlinkEntry
  rw [hm]

/-- The prune case: only slot 0 is truncated, to its first record; the
remaining slots are passed through verbatim. -/
theorem overlinkEntry_prunes_slot0 (nodes : List NodeJ) (e : String × PortMap)
    (first c2 : Conn) (restSlot : List Conn) (outs : List (List Conn))
    (hm : getEntry "main" e.2 = some ((first :: c2 :: restSlot) :: outs))
    (hcond : isConditionalSource nodes e.1 = false) :
    (overlinkEntry nodes e).1 = (e.1, setEntry "main" ([first] :: outs) e.2) := by
  unfold overlinkEntry
  rw [hm]
  simp [hcond]

/-- Port kinds other than `main` are never altered. -/
theorem overlinkEntry_other_ports (nodes : List NodeJ) (e : String × PortMap)
    (k : String) (hk : k ≠ "main") :
    getEntry k (overlinkEntry nodes e).1.2 = getEntry k e.2 := by
  unfold overlinkEntry
  cases hm : getEntry "main" e.2 with
  | none => rfl
  | some outs =>
      cases outs with
      | nil => rfl
      | cons slot0 rest =>
          by_cases hlen : slot0.length ≤ 1
          · simp [hlen]
          · by_cases hc : isConditionalSource nodes e.1
            · simp [hlen, hc]
            · cases slot0 with
              | nil => simp at hlen
              | cons first removed =>
                  simp only [hlen, if_false, hc, Bool.false_eq_true]
                  exact getEntry_setEntry_ne _ _ _ _ hk

/-- **C6 amended**: the over-fanout prune applies only to output slot 0
of non-IF/Switch sources (first-declared edge kept, others dropped);
other slots, other port kinds, IF/Switch sources and short slots are
unchanged — and Scenario D prunes step 3's slot-0 edge to step 7 while
keeping the edge to step 4. -/
theorem C6_amended_prune_only_slot0 :
    (∀ (w : WorkflowJ) (cs : Conns), w.connections = some cs →
      (removeOverlinking w).1.connections =
        some (cs.map (fun e => (overlinkEntry (w.nodes.getD []) e).1))) ∧
    (∀ (nodes : List NodeJ) (e : String × PortMap),
      isConditionalSource nodes e.1 = true → (overlinkEntry nodes e).1 = e) ∧
    (∀ (nodes : List NodeJ) (e : String × PortMap) (first c2 : Conn)
      (restSlot : List Conn) (outs : List (List Conn)),
      getEntry "main" e.2 = some ((first :: c2 :: restSlot) :: outs) →
      isConditionalSource nodes e.1 = false →
      (overlinkEntry nodes e).1 = (e.1, setEntry "main" ([first] :: outs) e.2)) ∧
    (∀ (nodes : List NodeJ) (e : String × PortMap) (k : String), k ≠ "main" →
      getEntry k (overlinkEntry nodes e).1.2 = getEntry k e.2) ∧
    (removeOverlinking scenarioD).1.connections =
      some (setEntry (chainName 3)
        [("main", [[⟨some (chainName 4), some "main", some 0⟩]])]
        (scenarioD.connections.getD [])) ∧
    (removeOverlinking scenarioD).2.2 =
      ["Removed over-linking: \"Step 3\" no longer connects to \"Step 7\" " ++
       "(keeping linear flow to \"Step 4\")"] :=
  ⟨removeOverlinking_connections,
   overlinkEntry_conditional_exempt,
   fun nodes e first c2 restSlot outs hm hcond =>
     overlinkEntry_prunes_slot0 nodes e first c2 restSlot outs hm hcond,
   overlinkEntry_other_ports,
   by decide, by decide⟩

/-- Witness for `C6_amended_prune_only_slot0`: the prune-case clause
applied at Scenario D's step-3 entry. -/
theorem C6_amended_witness :
    (overlinkEntry (scenarioD.nodes.getD [])
        (chainName 3, [("main", [[⟨some (chainName 4), some "main", some 0⟩,
                                  ⟨some (chainName 7), some "main", some 0⟩]])])).1 =
      (chainName 3, setEntry "main" [[⟨some (chainName 4), some "main", some 0⟩]]
        [("main", [[⟨some (chainName 4), some "main", some 0⟩,
                    ⟨some (chainName 7), some "main", some 0⟩]])]) :=
  C6_amended_prune_only_slot0.2.2.1 (scenarioD.nodes.getD []) _
    ⟨some (chainName 4), some "main", some 0⟩
    ⟨some (chainName 7), some "main", some 0⟩ [] _ (by decide) (by decide)

/-! # Claim C8 — amended theorem

Fix #3 deletes only the two literal parameter keys `model` and
`modelName` (each when its string value matches the deny-list); every
other key keeps its value, and after any deletion a truthy `options`
container is present.  The claim's "every parameter key" is refuted by
the counterexample above. -/

/-- `stripModelKey` never touches other keys. -/
theorem stripModelKey_other (key k : String) (params : List (String × PVal))
    (hk : k ≠ key) : getEntry k (stripModelKey key params).1 = getEntry k params := by
  unfold stripModelKey
  cases hg : getEntry key params with
  | none => rfl
  | some v =>
      cases v with
      | str s =>
          by_cases hv : matchesModelPattern s
          · simp only [hv, if_true]
            exact getEntry_delEntry_ne _ _ _ hk
          · simp [hv]
      | num i => rfl
      | bool b => rfl
      | null => rfl
      | obj o => rfl

/-- `stripModelKey` deletes a matching string value. -/
theorem stripModelKey_deletes (key : String) (params : List (String × PVal))
    (v : String) (hg : getEntry key params = some (.str v))
    (hm : matchesModelPattern v = true) :
    (stripModelKey key params).1 = delEntry key params ∧
    (stripModelKey key params).2 = true := by
  unfold stripModelKey
  rw [hg]
  simp [hm]

/-- When `stripModelKey` reports no deletion, the map is unchanged. -/
theorem stripModelKey_id_of_not (key : String) (params : List (String × PVal))
    (h : (stripModelKey key params).2 = false) :
    (stripModelKey key params).1 = params := by
  unfold stripModelKey at h ⊢
  cases hg : getEntry key params with
  | none => rfl
  | some v =>
      cases v with
      | str s =>
          rw [hg] at h
          by_cases hv : matchesModelPattern s
          · simp [hv] at h
          · simp [hv]
      | num i => rfl
      | bool b => rfl
      | null => rfl
      | obj o => rfl

/-- The fold of fix #3 maps `stripNodeModelParams` over the nodes. -/
theorem removeHardcoded_nodes_map (w : WorkflowJ) (nodes : List NodeJ)
    (h : w.nodes = some nodes) :
    (removeHardcodedModelParameters w).1.nodes =
      some (nodes.map (fun n => (stripNodeModelParams n).1)) := by
  unfold removeHardcodedModelParameters
  rw [h]
  simp only
  have hfold : ∀ (l : List NodeJ) (acc : List NodeJ × Nat × List String),
      (l.foldl
        (fun (acc : List NodeJ × Nat × List String) n =>
          let s := stripNodeModelParams n
          (acc.1 ++ [s.1], acc.2.1 + s.2.1, acc.2.2 ++ s.2.2)) acc).1 =
      acc.1 ++ l.map (fun n => (stripNodeModelParams n).1) := by
    intro l
    induction l with
    | nil => intro acc; simp
    | cons n t ih =>
        intro acc
        simp only [List.foldl, List.map_cons]
        rw [ih]
        simp
  rw [hfold]
  simp

/-- Keys other than `options` are untouched by `ensureOptions`. -/
theorem getEntry_ensureOptions_ne (k : String) (l : List (String × PVal))
    (hk : k ≠ "options") : getEntry k (ensureOptions l) = getEntry k l := by
  unfold ensureOptions
  cases hg : getEntry "options" l with
  | none => exact getEntry_setEntry_ne _ _ _ _ hk
  | some v =>
      by_cases hv : pvalFalsy v
      · simp only [hv, if_true]
        exact getEntry_setEntry_ne _ _ _ _ hk
      · simp [hv]

/-- `ensureOptions` leaves a truthy `options` value in place. -/
theorem ensureOptions_truthy (l : List (String × PVal)) :
    ∃ v, getEntry "options" (ensureOptions l) = some v ∧ pvalFalsy v = false := by
  unfold ensureOptions
  cases hg : getEntry "options" l with
  | none => exact ⟨.obj [], getEntry_setEntry_self _ _ _, rfl⟩
  | some v =>
      by_cases hv : pvalFalsy v
      · simp only [hv, if_true]
        exact ⟨.obj [], getEntry_setEntry_self _ _ _, rfl⟩
      · simp only [hv, Bool.false_eq_true, if_false]
        exact ⟨v, hg, by simpa using hv⟩

/-- The shape of `stripNodeModelParams` on a gated language-model node. -/
theorem stripNode_shape (n : NodeJ) (params : List (String × PVal))
    (htype : falsyStr n.type = false) (hname : falsyStr n.name = false)
    (hllm : isLanguageModelNode (n.type.getD "") = true)
    (hp : n.parameters = .map params) :
    stripNodeModelParams n =
      if (stripModelKey "model" params).2 = true ∨
          (stripModelKey "modelName" (stripModelKey "model" params).1).2 = true then
        ({n with parameters := .map (ensureOptions
            (stripModelKey "modelName" (stripModelKey "model" params).1).1)},
         (if (stripModelKey "model" params).2 = true then 1 else 0) +
           (if (stripModelKey "modelName" (stripModelKey "model" params).1).2 = true
            then 1 else 0),
         ["Removed hardcoded model parameter from LLM node \"" ++ n.name.getD "" ++
          "\" (type: " ++ n.type.getD "" ++ ")"])
      else (n, 0, []) := by
  unfold stripNodeModelParams
  simp [htype, hname, hllm, hp]

/-- Per-node behavior of fix #3 on a gated language-model node. -/
theorem stripNodeModelParams_spec (n : NodeJ) (params : List (String × PVal))
    (htype : falsyStr n.type = false) (hname : falsyStr n.name = false)
    (hllm : isLanguageModelNode (n.type.getD "") = true)
    (hp : n.parameters = .map params) :
    (∀ k : String, k ≠ "model" → k ≠ "modelName" → k ≠ "options" →
      getEntry k (paramsOf (stripNodeModelParams n).1) = getEntry k params) ∧
    (∀ v : String, getEntry "model" params = some (.str v) →
      matchesModelPattern v = true →
      getEntry "model" (paramsOf (stripNodeModelParams n).1) = none) ∧
    (∀ v : String, getEntry "modelName" params = some (.str v) →
      matchesModelPattern v = true →
      getEntry "modelName" (paramsOf (stripNodeModelParams n).1) = none) ∧
    ((stripNodeModelParams n).2.1 = 0 → (stripNodeModelParams n).1 = n) ∧
    (0 < (stripNodeModelParams n).2.1 →
      ∃ v, getEntry "options" (paramsOf (stripNodeModelParams n).1) = some v ∧
        pvalFalsy v = false) := by
  have hshape := stripNode_shape n params htype hname hllm hp
  have hr2other : ∀ k : String, k ≠ "model" → k ≠ "modelName" →
      getEntry k (stripModelKey "modelName" (stripModelKey "model" params).1).1 =
      getEntry k params := by
    intro k hk1 hk2
    rw [stripModelKey_other _ _ _ hk2, stripModelKey_other _ _ _ hk1]
  by_cases hstrip : (stripModelKey "model" params).2 = true ∨
      (stripModelKey "modelName" (stripModelKey "model" params).1).2 = true
  · rw [if_pos hstrip] at hshape
    have hnode : (stripNodeModelParams n).1 =
        {n with parameters := .map (ensureOptions
          (stripModelKey "modelName" (stripModelKey "model" params).1).1)} := by
      rw [hshape]
    have hparams : paramsOf (stripNodeModelParams n).1 =
        ensureOptions (stripModelKey "modelName" (stripModelKey "model" params).1).1 := by
      rw [hnode]
      rfl
    have hmodelNone : ∀ v : String, getEntry "model" params = some (.str v) →
        matchesModelPattern v = true →
        getEntry "model" (paramsOf (stripNodeModelParams n).1) = none := by
      intro v hg hm
      have hdel := stripModelKey_deletes "model" params v hg hm
      rw [hparams,
        getEntry_ensureOptions_ne _ _ (by decide : ("model" : String) ≠ "options"),
        stripModelKey_other _ _ _ (by decide : ("model" : String) ≠ "modelName"),
        hdel.1]
      exact getEntry_delEntry_self _ _
    have hmodelNameNone : ∀ v : String, getEntry "modelName" params = some (.str v) →
        matchesModelPattern v = true →
        getEntry "modelName" (paramsOf (stripNodeModelParams n).1) = none := by
      intro v hg hm
      have hg' : getEntry "modelName" (stripModelKey "model" params).1 =
          some (.str v) := by
        rw [stripModelKey_other _ _ _ (by decide : ("modelName" : String) ≠ "model")]
        exact hg
      have hdel := stripModelKey_deletes "modelName"
        (stripModelKey "model" params).1 v hg' hm
      rw [hparams,
        getEntry_ensureOptions_ne _ _ (by decide : ("modelName" : String) ≠ "options"),
        hdel.1]
      exact getEntry_delEntry_self _ _
    refine ⟨?_, hmodelNone, hmodelNameNone, ?_, ?_⟩
    · intro k hk1 hk2 hk3
      rw [hparams, getEntry_ensureOptions_ne _ _ hk3]
      exact hr2other k hk1 hk2
    · intro hzero
      exfalso
      rw [hshape] at hzero
      simp only at hzero
      rcases hstrip with h | h <;> simp [h] at hzero
    · intro _
      rw [hparams]
      exact ensureOptions_truthy _
  · rw [if_neg hstrip] at hshape
    push_neg at hstrip
    have h1 : (stripModelKey "model" params).2 = false := by
      cases hv : (stripModelKey "model" params).2
      · rfl
      · exact absurd hv hstrip.1
    have hid : (stripModelKey "model" params).1 = params :=
      stripModelKey_id_of_not _ _ h1
    refine ⟨?_, ?_, ?_, ?_, ?_⟩
    · intro k _ _ _
      rw [hshape]
      simp only [paramsOf, hp]
    · intro v hg hm
      have := (stripModelKey_deletes "model" params v hg hm).2
      rw [h1] at this
      cases this
    · intro v hg hm
      have := (stripModelKey_deletes "modelName"
        (stripModelKey "model" params).1 v (by rw [hid]; exact hg) hm).2
      have h2 : (stripModelKey "modelName" (stripModelKey "model" params).1).2 =
          false := by
        cases hv : (stripModelKey "modelName" (stripModelKey "model" params).1).2
        · rfl
        · exact absurd hv hstrip.2
      rw [h2] at this
      cases this
    · intro _
      rw [hshape]
    · intro hpos
      rw [hshape] at hpos
      simp at hpos

/-- **C8 amended**: fix #3 deletes exactly the `model` / `modelName`
keys whose string value matches the deny-list (over the node list it is
the per-node map of `stripNodeModelParams`); every other parameter key
keeps its value, an untouched node count reports zero, and after any
deletion a truthy `options` container is present. -/
theorem C8_amended_only_model_keys :
    (∀ (w : WorkflowJ) (nodes : List NodeJ), w.nodes = some nodes →
      (removeHardcodedModelParameters w).1.nodes =
        some (nodes.map (fun n => (stripNodeModelParams n).1))) ∧
    (∀ (n : NodeJ) (params : List (String × PVal)),
      falsyStr n.type = false → falsyStr n.name = false →
      isLanguageModelNode (n.type.getD "") = true → n.parameters = .map params →
      (∀ k : String, k ≠ "model" → k ≠ "modelName" → k ≠ "options" →
        getEntry k (paramsOf (stripNodeModelParams n).1) = getEntry k params) ∧
      (∀ v : String, getEntry "model" params = some (.str v) →
        matchesModelPattern v = true →
        getEntry "model" (paramsOf (stripNodeModelParams n).1) = none) ∧
      (∀ v : String, getEntry "modelName" params = some (.str v) →
        matchesModelPattern v = true →
        getEntry "modelName" (paramsOf (stripNodeModelParams n).1) = none) ∧
      ((stripNodeModelParams n).2.1 = 0 → (stripNodeModelParams n).1 = n) ∧
      (0 < (stripNodeModelParams n).2.1 →
        ∃ v, getEntry "options" (paramsOf (stripNodeModelParams n).1) = some v ∧
          pvalFalsy v = false)) :=
  ⟨removeHardcoded_nodes_map, stripNodeModelParams_spec⟩

/-- Witness for `C8_amended_only_model_keys` at the `modelLiteralW`
node: `model` (value `gpt-4o`, matching) is deleted, `customModel` and
`temperature` are preserved. -/
theorem C8_amended_witness :
    getEntry "model" (paramsOf (stripNodeModelParams
      (sampleNode "LLM" "@n8n/n8n-nodes-langchain.lmChatOpenAi" [0, 0]
        [("customModel", .str "gpt-4"), ("model", .str "gpt-4o"),
         ("temperature", .num 1)])).1) = none ∧
    getEntry "customModel" (paramsOf (stripNodeModelParams
      (sampleNode "LLM" "@n8n/n8n-nodes-langchain.lmChatOpenAi" [0, 0]
        [("customModel", .str "gpt-4"), ("model", .str "gpt-4o"),
         ("temperature", .num 1)])).1) = some (.str "gpt-4") :=
  ⟨((C8_amended_only_model_keys.2 _ _ (by decide) (by decide) (by decide) rfl).2.1)
      "gpt-4o" (by decide) (by decide),
   by
    rw [((C8_amended_only_model_keys.2 _ _ (by decide) (by decide) (by decide)
      rfl).1) "customModel" (by decide) (by decide) (by decide)]
    decide⟩

/-! # Claim C4 — amended theorem

What survives of the tool-edge law: after the pipeline (on any workflow
whose `nodes` field is an array), **every `ai_tool` record that carries
an `index` field has index 0** — established by fix #7 and preserved by
the only later passes (#9 touches `main` only, #10 adds index-0 records).
The direction constraints are refuted by the counterexample above. -/

/-- The per-slot fold of `normalizeEntry` keeps every record's index
absent-or-zero. -/
theorem normalizeSlot_all_ok (arr : List Conn)
    (acc : List Conn × Nat × List String) (hacc : acc.1.all connIdxOk = true)
    (e1 : String) :
    ((arr.foldl
      (fun (acc2 : List Conn × Nat × List String) c =>
        match c.index with
        | some i =>
            if i ≠ 0 then
              (acc2.1 ++ [{c with index := some 0}], acc2.2.1 + 1,
               acc2.2.2 ++ ["Fixed ai_tool connection from \"" ++ e1 ++
                 "\" to \"" ++ showOpt c.node ++ "\": index " ++ toString i ++
                 " -> 0"])
            else (acc2.1 ++ [c], acc2.2)
        | none => (acc2.1 ++ [c], acc2.2)) acc).1).all connIdxOk = true := by
  induction arr generalizing acc with
  | nil => exact hacc
  | cons c t ih =>
      simp only [List.foldl]
      apply ih
      cases hc : c.index with
      | none => simp [hc, connIdxOk, hacc]
      | some i =>
          by_cases hi : i = 0
          · simp [hc, hi, connIdxOk, hacc]
          · simp [hc, hi, connIdxOk, hacc]

/-- The per-entry result of fix #7 satisfies the invariant check. -/
theorem normalizeEntry_ok (e : String × PortMap) :
    (match getEntry "ai_tool" ((normalizeEntry e).1).2 with
     | some outs => outs.all (fun arr => arr.all connIdxOk)
     | none => true) = true := by
  unfold normalizeEntry
  cases hg : getEntry "ai_tool" e.2 with
  | none => simp [hg]
  | some outs =>
      simp only
      rw [getEntry_setEntry_self]
      have : ∀ (l : List (List Conn)) (acc : List (List Conn) × Nat × List String),
          (acc.1.all (fun arr => arr.all connIdxOk)) = true →
          ((l.foldl
            (fun (acc : List (List Conn) × Nat × List String) arr =>
              let r2 := arr.foldl
                (fun (acc2 : List Conn × Nat × List String) c =>
                  match c.index with
                  | some i =>
                      if i ≠ 0 then
                        (acc2.1 ++ [{c with index := some 0}], acc2.2.1 + 1,
                         acc2.2.2 ++ ["Fixed ai_tool connection from \"" ++ e.1 ++
                           "\" to \"" ++ showOpt c.node ++ "\": index " ++
                           toString i ++ " -> 0"])
                      else (acc2.1 ++ [c], acc2.2)
                  | none => (acc2.1 ++ [c], acc2.2)) ([], 0, [])
              (acc.1 ++ [r2.1], acc.2.1 + r2.2.1, acc.2.2 ++ r2.2.2)) acc).1).all
            (fun arr => arr.all connIdxOk) = true := by
        intro l
        induction l with
        | nil => intro acc h; exact h
        | cons arr t ih =>
            intro acc h
            simp only [List.foldl]
            apply ih
            simp only [List.all_append, h, List.all_cons, List.all_nil,
              Bool.and_true, Bool.true_and]
            exact normalizeSlot_all_ok arr ([], 0, []) rfl e.1
      exact this outs ([], 0, []) rfl

/-- Fix #7 establishes the index invariant. -/
theorem normalize_establishes (w : WorkflowJ) :
    wfIdx0 (normalizeAIToolIndexes w).1 = true := by
  unfold normalizeAIToolIndexes
  cases hc : w.connections with
  | none => simp [wfIdx0, hc, aiToolIdx0]
  | some cs =>
      simp only
      have hfold : ∀ (l : Conns) (acc : Conns × Nat × List String),
          (l.foldl
            (fun (acc : Conns × Nat × List String) e =>
              let r2 := normalizeEntry e
              (acc.1 ++ [r2.1], acc.2.1 + r2.2.1, acc.2.2 ++ r2.2.2)) acc).1 =
          acc.1 ++ l.map (fun e => (normalizeEntry e).1) := by
        intro l
        induction l with
        | nil => intro acc; simp
        | cons e t ih =>
            intro acc
            simp only [List.foldl, List.map_cons]
            rw [ih]
            simp
      simp only [wfIdx0, Option.getD_some]
      rw [hfold]
      simp only [List.nil_append, aiToolIdx0, List.all_map, List.all_eq_true]
      intro e _
      exact normalizeEntry_ok e

/-- Fix #9 preserves the index invariant (it rewrites only `main`). -/
theorem overlink_preserves (w : WorkflowJ) (h : wfIdx0 w = true) :
    wfIdx0 (removeOverlinking w).1 = true := by
  cases hc : w.connections with
  | none =>
      unfold removeOverlinking
      rw [hc]
      simpa [wfIdx0, hc] using h
  | some cs =>
      have hmap := removeOverlinking_connections w cs hc
      have hconn : (removeOverlinking w).1.connections =
          some (cs.map (fun e => (overlinkEntry (w.nodes.getD []) e).1)) := hmap
      unfold wfIdx0 at h ⊢
      rw [hconn]
      rw [hc] at h
      simp only [Option.getD_some] at h ⊢
      simp only [aiToolIdx0, List.all_eq_true] at h ⊢
      intro x hx
      rcases List.mem_map.mp hx with ⟨e, he, rfl⟩
      rw [overlinkEntry_other_ports (w.nodes.getD []) e "ai_tool" (by decide)]
      exact h e he

/-- `pushMainConn` preserves the index invariant at the `Conns` level. -/
theorem pushMainConn_preserves (srcKey : String) (nm : Option String)
    (cs cs' : Conns) (h : aiToolIdx0 cs = true)
    (hp : pushMainConn srcKey nm cs = .ok cs') : aiToolIdx0 cs' = true := by
  unfold pushMainConn at hp
  simp only at hp
  set cs1 := if (getEntry srcKey cs).isSome = true then cs
    else setEntry srcKey ([] : PortMap) cs with hcs1
  have h1 : aiToolIdx0 cs1 = true := by
    rw [hcs1]
    split
    · exact h
    · simp only [aiToolIdx0, List.all_eq_true] at h ⊢
      intro e he
      rcases mem_setEntry _ _ _ _ he with he' | he'
      · exact h e he'
      · subst he'
        simp [getEntry]
  set pm0 := (getEntry srcKey cs1).getD [] with hpm0
  have hpm0ok : (match getEntry "ai_tool" pm0 with
      | some outs => outs.all (fun arr => arr.all connIdxOk)
      | none => true) = true := by
    rw [hpm0]
    cases hg : getEntry srcKey cs1 with
    | none => simp [getEntry]
    | some v =>
        simp only [Option.getD_some]
        have hmem := getEntry_mem _ _ _ hg
        simp only [aiToolIdx0, List.all_eq_true] at h1
        exact h1 _ hmem
  set pmm := if (getEntry "main" pm0).isSome = true then pm0
    else setEntry "main" ([[]] : List (List Conn)) pm0 with hpmm
  have hpmmok : (match getEntry "ai_tool" pmm with
      | some outs => outs.all (fun arr => arr.all connIdxOk)
      | none => true) = true := by
    rw [hpmm]
    by_cases hmain : (getEntry "main" pm0).isSome = true
    · rw [if_pos hmain]
      exact hpm0ok
    · rw [if_neg hmain,
        getEntry_setEntry_ne _ _ _ _ (by decide : ("ai_tool" : String) ≠ "main")]
      exact hpm0ok
  cases hg : getEntry "main" pmm with
  | none => rw [hg] at hp; cases hp
  | some outs =>
      rw [hg] at hp
      cases outs with
      | nil => cases hp
      | cons slot0 rest =>
          simp only [pure, Except.pure, Except.ok.injEq] at hp
          subst hp
          simp only [aiToolIdx0, List.all_eq_true]
          intro e he
          rcases mem_setEntry _ _ _ _ he with he' | he'
          · simp only [aiToolIdx0, List.all_eq_true] at h1
            exact h1 e he'
          · subst he'
            simp only
            rw [getEntry_setEntry_ne _ _ _ _
              (by decide : ("ai_tool" : String) ≠ "main")]
            exact hpmmok

/-- The `main`-push monadic tail used by fix #10 preserves the index
invariant. -/
theorem pushBind_preserves (K : String) (nm : Option String) (cs : Conns)
    (a : Nat) (m : List String) (st' : Conns × Nat × List String)
    (h : aiToolIdx0 cs = true)
    (hs : (do
      let c ← pushMainConn K nm cs
      pure (c, a, m) : Except String (Conns × Nat × List String)) = .ok st') :
    aiToolIdx0 st'.1 = true := by
  cases hps : pushMainConn K nm cs with
  | error e =>
      rw [hps] at hs
      simp only [bind, Except.bind] at hs
      cases hs
  | ok cs2 =>
      rw [hps] at hs
      simp only [bind, Except.bind, pure, Except.pure, Except.ok.injEq] at hs
      subst hs
      exact pushMainConn_preserves _ _ _ _ h hps

/-- One step of fix #10 preserves the index invariant. -/
theorem rebuildOrphanStep_preserves (nodes : List NodeJ) (incoming : List String)
    (st : Conns × Nat × List String) (node : NodeJ)
    (st' : Conns × Nat × List String) (h : aiToolIdx0 st.1 = true)
    (hs : rebuildOrphanStep nodes incoming st node = .ok st') :
    aiToolIdx0 st'.1 = true := by
  unfold rebuildOrphanStep at hs
  simp only at hs
  split at hs
  · cases hs; exact h
  · split at hs
    · cases hs; exact h
    · split at hs
      · -- tool-kind orphan: an `ai_tool` port with a single index-0 record
        split at hs
        · cases hs; exact h
        · simp only [pure, Except.pure, Except.ok.injEq] at hs
          subst hs
          simp only [aiToolIdx0, List.all_eq_true]
          intro e he
          rcases mem_setEntry _ _ _ _ he with he' | he'
          · -- an entry of the ensured map
            by_cases hsome : (getEntry (showOpt node.name) st.1).isSome = true
            · rw [if_pos hsome] at he'
              simp only [aiToolIdx0, List.all_eq_true] at h
              exact h e he'
            · rw [if_neg hsome] at he'
              rcases mem_setEntry _ _ _ _ he' with he3 | he3
              · simp only [aiToolIdx0, List.all_eq_true] at h
                exact h e he3
              · subst he3
                simp [getEntry]
          · subst he'
            simp only
            rw [getEntry_setEntry_self]
            simp [connIdxOk]
      · -- regular orphan: a `main` push, via `pushMainConn`
        split at hs
        · exact pushBind_preserves _ _ _ _ _ _ h hs
        · split at hs
          · cases hs; exact h
          · exact pushBind_preserves _ _ _ _ _ _ h hs

/-- The fold of fix #10 preserves the index invariant. -/
theorem rebuildFold_preserves (nodes : List NodeJ) (incoming : List String) :
    ∀ (l : List NodeJ) (st r : Conns × Nat × List String),
      aiToolIdx0 st.1 = true →
      l.foldlM (rebuildOrphanStep nodes incoming) st = .ok r →
      aiToolIdx0 r.1 = true := by
  intro l
  induction l with
  | nil =>
      intro st r h hf
      simp only [List.foldlM] at hf
      cases hf
      exact h
  | cons n t ih =>
      intro st r h hf
      simp only [List.foldlM] at hf
      cases hs : rebuildOrphanStep nodes incoming st n with
      | error e =>
          rw [hs] at hf
          simp only [bind, Except.bind] at hf
          cases hf
      | ok st' =>
          rw [hs] at hf
          simp only [bind, Except.bind] at hf
          exact ih st' r (rebuildOrphanStep_preserves nodes incoming st n st' h hs) hf

/-- Fix #10 preserves the index invariant. -/
theorem rebuild_preserves (w : WorkflowJ) (r : WorkflowJ × Nat × List String)
    (h : wfIdx0 w = true) (hr : rebuildOrphanedConnections w = .ok r) :
    wfIdx0 r.1 = true := by
  unfold rebuildOrphanedConnections at hr
  cases hn : w.nodes with
  | none =>
      rw [hn] at hr
      simp only [pure, Except.pure, Except.ok.injEq] at hr
      subst hr
      exact h
  | some nodes =>
      rw [hn] at hr
      simp only at hr
      cases hf : (nodes.foldlM
          (rebuildOrphanStep nodes (incomingNames (w.connections.getD [])))
          (w.connections.getD [], 0, [])) with
      | error e =>
          rw [hf] at hr
          simp only [bind, Except.bind] at hr
          cases hr
      | ok r0 =>
          rw [hf] at hr
          simp only [bind, Except.bind, pure, Except.pure, Except.ok.injEq] at hr
          subst hr
          have := rebuildFold_preserves nodes (incomingNames (w.connections.getD []))
            nodes (w.connections.getD [], 0, []) r0 h hf
          simpa [wfIdx0] using this

/-- Inversion for a successful `Except` bind. -/
theorem exceptBind_ok {α β : Type} {e : Except String α} {f : α → Except String β}
    {b : β} (h : (e >>= f) = .ok b) : ∃ a, e = .ok a ∧ f a = .ok b := by
  cases e with
  | error err => simp only [bind, Except.bind] at h; cases h
  | ok a =>
      refine ⟨a, rfl, ?_⟩
      simpa only [bind, Except.bind] using h

/-- The pipeline tail establishes the `ai_tool` index-0 invariant:
fix #7 forces it, and fixes #9 and #10 preserve it. -/
theorem afterFix4_ok_idx0 (w : WorkflowJ) (f wn : List String) (fx : Bool)
    (fr : FixResult) (h : afterFix4 w f wn fx = .ok fr) :
    wfIdx0 fr.workflow = true := by
  simp only [afterFix4] at h
  split at h
  · -- fix #10 runs
    obtain ⟨r10, h10, h⟩ := exceptBind_ok h
    simp only [pure, Except.pure, Except.ok.injEq] at h
    subst h
    exact rebuild_preserves _ _
      (overlink_preserves _ (normalize_establishes _)) h10
  · -- fix #10 skipped
    simp only [pure, Except.pure, Except.ok.injEq] at h
    subst h
    exact overlink_preserves _ (normalize_establishes _)

/-- C4 (amended). The spec claims that after the pipeline every `ai_tool`
edge points from a tool-capable node to an agent node at index 0; the
direction part is false (see the counterexample), but the **index-0**
part is a real invariant: fix #7 (`normalizeAIToolIndexes`) forces every
`ai_tool` connection index to 0 (or absent), and the later passes
(fix #9 `removeOverlinking`, which only prunes `main[0]`, and fix #10
`rebuildOrphanedConnections`, which only pushes `main` connections)
preserve it.  Hence whenever `applyAutoFixes` succeeds, every `ai_tool`
connection in the repaired workflow has index 0 or no index. -/
theorem C4_amended_ai_tool_index_zero (w : WorkflowJ) (ns : List NodeJ)
    (fr : FixResult) (hn : w.nodes = some ns)
    (h : applyAutoFixes w = .ok fr) : wfIdx0 fr.workflow = true := by
  unfold applyAutoFixes at h
  simp only [hn] at h
  obtain ⟨r4, h4, h⟩ := exceptBind_ok h
  exact afterFix4_ok_idx0 _ _ _ _ _ h

/-- Witness for the C4 amended theorem at the concrete workflow
`toolTargetW`: the pipeline succeeds and the index-0 invariant holds of
its result. -/
theorem C4_amended_witness :
    applyAutoFixes toolTargetW = .ok toolTargetFixed ∧
      wfIdx0 toolTargetFixed.workflow = true :=
  ⟨by decide,
   C4_amended_ai_tool_index_zero toolTargetW _ toolTargetFixed rfl (by decide)⟩

/-! # Claim C10 — the `valid` flag is `errors = []` on every return path -/

/-! # Claim C1 — amended theorem

What actually holds (validator.ts 1363-1377): when autofix is on, the
input passes the malformed-input fast exits, the pipeline reports at
least one fix, and the repaired nodes have pairwise-distinct names, then
`validateWorkflow` **clears every accumulated error** and returns
`valid: true`, `errors: []`, `autofixed: true` — residual structural
errors are not re-checked (only duplicate names are). -/

/-- **C1 amended**: under the stated conditions the report is
`valid: true` with an empty error list and `autofixed: true`, whatever
structural errors were found before repair. -/
theorem C1_amended_autofix_clears_errors
    (w : WorkflowJ) (ns : List NodeJ) (fr : FixResult)
    (hn : w.nodes = some ns)
    (h0 : step0Scan ns = .ok [])
    (hne : ns ≠ [])
    (hfix : applyAutoFixes w = .ok fr)
    (hfixed : fr.fixed = true)
    (hdup : hasDupNames (fr.workflow.nodes.getD []) = false) :
    (validateWorkflow (some w) true).valid = true ∧
    (validateWorkflow (some w) true).errors = [] ∧
    (validateWorkflow (some w) true).autofixed = true ∧
    (validateWorkflow (some w) true).fixes = fr.fixes ∧
    (validateWorkflow (some w) true).normalized = some fr.workflow := by
  have hempty : ns.isEmpty = false := by
    cases ns with
    | nil => exact absurd rfl hne
    | cons a t => rfl
  unfold validateWorkflow
  simp [hn, h0, hempty, hfix, hfixed, hdup]

/-- Witness for `C1_amended_autofix_clears_errors` at Scenario B. -/
theorem C1_amended_witness :
    (validateWorkflow (some scenarioB) true).valid = true ∧
    (validateWorkflow (some scenarioB) true).errors = [] ∧
    (validateWorkflow (some scenarioB) true).autofixed = true ∧
    (validateWorkflow (some scenarioB) true).fixes = scenarioBFix.fixes ∧
    (validateWorkflow (some scenarioB) true).normalized = some scenarioBFix.workflow :=
  C1_amended_autofix_clears_errors scenarioB
    [sampleNode "Node1" "n8n-nodes-base.set" [0, 0] []] scenarioBFix
    rfl (by decide) (by decide) (by decide) rfl rfl

/-- The early-return value of the STEP-0 scan is never the empty list. -/
theorem step0Go_error_ne_nil :
    ∀ (l : List (Nat × NodeJ)) (acc errs : List String),
      step0Go acc l = .error errs → errs ≠ [] := by
  intro l
  induction l with
  | nil => intro acc errs h; cases h
  | cons q t ih =>
      intro acc errs h
      unfold step0Go at h
      by_cases hm : q.2.parameters = .malformed
      · rw [if_pos hm] at h
        cases h
        simp
      · rw [if_neg hm] at h
        exact ih _ _ h

/-- **C10 — confirmed**: every result of `validateWorkflow` (non-object
input, malformed-parameters exit, malformed/incomplete banner exit,
missing or empty `nodes` exits, the `applyAutoFixes` exception path, and
both normal exits with and without autofix) satisfies
`valid = true ↔ errors = []`. -/
theorem C10_valid_iff_errors_empty (ow : Option WorkflowJ) (autofix : Bool) :
    (validateWorkflow ow autofix).valid = true ↔
    (validateWorkflow ow autofix).errors = [] := by
  unfold validateWorkflow
  cases ow with
  | none => simp
  | some w =>
      cases hn : w.nodes with
      | none => simp [hn]
      | some ns =>
          simp only [hn]
          cases h0 : step0Scan ns with
          | error errs =>
              have hne : errs ≠ [] := step0Go_error_ne_nil ns.enum [] errs h0
              simp [hne]
          | ok errs0 =>
              simp only
              split <;> rename_i hbanner
              · simp
              · split <;> rename_i hempty
                · simp
                · split <;> rename_i hauto
                  · cases hf : applyAutoFixes w with
                    | error msg => simp
                    | ok fr =>
                        simp only
                        split <;> rename_i hclear
                        · simp
                        · simp
                  · simp

end NWF
